import Mathlib

set_option maxRecDepth 8000

namespace Rail

/-! Shallow embedding of the RAIL reflection-based command dispatch engine
(RailSDK-Cpp: dispatcher.cpp, instance_registry.cpp, manifest_generator.cpp).
JSON values follow the nlohmann model; the rttr reflection catalog is a list
of class descriptors; C++ exceptions are modelled with Except, carrying the
string produced by the what() member of the thrown exception. -/

/-- Model of an nlohmann json value. Integer and floating numerics are kept
apart, matching is_number_integer versus is_number_float. Objects are
association lists with unique keys (nlohmann stores a sorted map). -/
inductive Json where
  | null : Json
  | jbool : Bool → Json
  | jint : Int → Json
  | jnum : ℚ → Json
  | jstr : String → Json
  | jarr : List Json → Json
  | jobj : List (String × Json) → Json

/-- Test for the json null value, as in nlohmann is_null. -/
def Json.isNull : Json → Bool
  | .null => true
  | _ => false

/-- Test matching nlohmann is_string. -/
def Json.isString : Json → Bool
  | .jstr _ => true
  | _ => false

/-- Test matching nlohmann is_boolean. -/
def Json.isBoolean : Json → Bool
  | .jbool _ => true
  | _ => false

/-- Test matching nlohmann is_number_integer. -/
def Json.isNumberInteger : Json → Bool
  | .jint _ => true
  | _ => false

/-- Test matching nlohmann is_number (true for integer and floating values). -/
def Json.isNumber : Json → Bool
  | .jint _ => true
  | .jnum _ => true
  | _ => false

/-- Test matching nlohmann is_array. -/
def Json.isArray : Json → Bool
  | .jarr _ => true
  | _ => false

/-- Test matching nlohmann is_object. -/
def Json.isObject : Json → Bool
  | .jobj _ => true
  | _ => false

/-- Name of a json value kind, as returned by nlohmann type_name(). -/
def Json.typeName : Json → String
  | .null => "null"
  | .jbool _ => "boolean"
  | .jint _ => "number"
  | .jnum _ => "number"
  | .jstr _ => "string"
  | .jarr _ => "array"
  | .jobj _ => "object"

/-- Lookup of a key in an object field list (nlohmann objects have unique
keys, so first match is the match). -/
def lookupField (fields : List (String × Json)) (key : String) : Option Json :=
  (fields.find? (fun f => f.1 = key)).map (fun f => f.2)

/-- Model of nlohmann contains: true only on objects holding the key. -/
def jContains (j : Json) (key : String) : Bool :=
  match j with
  | .jobj fields => (lookupField fields key).isSome
  | _ => false

/-- Model of nlohmann operator[] for reads that are guarded by contains in
the dispatcher; a miss yields null (never reached behind a contains guard). -/
def jGet (j : Json) (key : String) : Json :=
  match j with
  | .jobj fields =>
    match lookupField fields key with
    | some v => v
    | none => Json.null
  | _ => Json.null

/-- Conversion of a json value to std::string, as by assignment from a
nlohmann value: a non-string value throws type_error.302; the error value
carries the what() text of the exception. -/
def asStringE (j : Json) : Except String String :=
  match j with
  | .jstr s => Except.ok s
  | other =>
      Except.error
        ("[json.exception.type_error.302] type must be string, but is "
          ++ other.typeName)

/-- Model of the rttr type identities that the dispatcher distinguishes. -/
inductive RType where
  | tInt : RType
  | tFloat : RType
  | tDouble : RType
  | tBool : RType
  | tString : RType
  | tVoid : RType
  | tNone : RType
  | classT : String → RType
  | tPtr : RType → RType
  | tWrap : RType → RType
deriving DecidableEq

/-- Model of an rttr variant: the invalid variant, the empty-but-valid
void-typed variant (what method invoke returns when a void-returning call
completes; the invalid variant is what it returns when the invoke fails),
or a typed value. Class instances carry their class name; pointer and
wrapper indirections are explicit, matching is_pointer and is_wrapper on
the held type. -/
inductive Variant where
  | invalid : Variant
  | vvoid : Variant
  | vint : Int → Variant
  | vfloat : ℚ → Variant
  | vdouble : ℚ → Variant
  | vbool : Bool → Variant
  | vstr : String → Variant
  | vobj : String → Variant
  | vptr : Variant → Variant
  | vwrap : Variant → Variant
deriving DecidableEq

/-- Model of rttr variant get_type. -/
def Variant.typeOf : Variant → RType
  | .invalid => RType.tNone
  | .vvoid => RType.tVoid
  | .vint _ => RType.tInt
  | .vfloat _ => RType.tFloat
  | .vdouble _ => RType.tDouble
  | .vbool _ => RType.tBool
  | .vstr _ => RType.tString
  | .vobj n => RType.classT n
  | .vptr v => RType.tPtr v.typeOf
  | .vwrap v => RType.tWrap v.typeOf

/-- Printable name of an rttr type, as used in the method-not-found error. -/
def RType.name : RType → String
  | .tInt => "int"
  | .tFloat => "float"
  | .tDouble => "double"
  | .tBool => "bool"
  | .tString => "std::string"
  | .tVoid => "void"
  | .tNone => ""
  | .classT n => n
  | .tPtr t => t.name ++ "*"
  | .tWrap t => t.name

/-- Parameter descriptor: declared name and declared type. -/
structure ParamInfo where
  name : String
  type : RType

/-- Method descriptor from the reflection catalog. The invoker models
rttr method invoke on an instance with an argument list: it may produce a
result variant or throw (Except.error carries the what() text). Per rttr,
a completed call of a void-returning method produces the valid void-typed
variant, and a failed invoke produces the invalid variant. -/
structure Method where
  name : String
  params : List ParamInfo
  retType : RType
  metaDescription : Option String
  invoke : Variant → List Variant → Except String Variant

/-- Entry of the reflection catalog: one registered type with its methods
and its is_class flag. -/
structure RClass where
  name : String
  isClass : Bool
  methods : List Method

/-- Model of rttr type get_method on a resolved type: methods exist only on
class types found in the catalog; first name match wins. -/
def getMethod (catalog : List RClass) (t : RType) (methodName : String) :
    Option Method :=
  match t with
  | .classT cn =>
    match catalog.find? (fun c => c.name = cn) with
    | some c => c.methods.find? (fun m => m.name = methodName)
    | none => none
  | _ => none

/-- Model of InstanceRegistry::Get (instance_registry.cpp): lookup of the
stored variant, or the invalid variant on a miss. The backing std::map has
unique keys, modelled by first-match lookup in the association list. -/
def InstanceRegistry.Get (registry : List (String × Variant)) (id : String) :
    Variant :=
  match registry.find? (fun p => p.1 = id) with
  | some p => p.2
  | none => Variant.invalid

/-- Whitespace accepted by std::isspace in the default locale. -/
def isCSpace (c : Char) : Bool :=
  c = ' ' || c = '\t' || c = '\n' || c = '\x0b' || c = '\x0c' || c = '\r'

/-- Numeric value of a list of decimal digit characters. -/
def digitsVal (cs : List Char) : Nat :=
  cs.foldl (fun a c => a * 10 + (c.toNat - 48)) 0

/-- Integer prefix scan used by std::stoi: optional whitespace, optional
sign, then a nonempty run of decimal digits; none when no digits follow. -/
def stoiScan (cs : List Char) : Option Int :=
  let cs1 := cs.dropWhile isCSpace
  match cs1 with
  | '-' :: rest =>
    let ds := rest.takeWhile Char.isDigit
    if ds.isEmpty then none else some (-(digitsVal ds : Int))
  | '+' :: rest =>
    let ds := rest.takeWhile Char.isDigit
    if ds.isEmpty then none else some (digitsVal ds : Int)
  | _ =>
    let ds := cs1.takeWhile Char.isDigit
    if ds.isEmpty then none else some (digitsVal ds : Int)

/-- Model of std::stoi: throws invalid_argument when no conversion can be
performed and out_of_range when the value does not fit int; in both cases
the what() text of the libstdc++ exception is the string stoi. -/
def stoiChars (cs : List Char) : Except String Int :=
  match stoiScan cs with
  | none => Except.error "stoi"
  | some v =>
    if v < -2147483648 ∨ 2147483647 < v then Except.error "stoi"
    else Except.ok v

/-- Floating prefix scan shared by the std::stof and std::stod models:
optional whitespace, optional sign, digits with optional fraction and
optional exponent; none when no digits are found. Hexadecimal, inf and nan
forms are not modelled (never produced by the dispatcher inputs). -/
def stofScan (cs : List Char) : Option ℚ :=
  let cs1 := cs.dropWhile isCSpace
  let signAndRest :=
    match cs1 with
    | '-' :: rest => ((-1 : ℚ), rest)
    | '+' :: rest => ((1 : ℚ), rest)
    | _ => ((1 : ℚ), cs1)
  let sign := signAndRest.1
  let rest := signAndRest.2
  let intDs := rest.takeWhile Char.isDigit
  let rest2 := rest.dropWhile Char.isDigit
  let fracAndRest :=
    match rest2 with
    | '.' :: rest3 => (rest3.takeWhile Char.isDigit, rest3.dropWhile Char.isDigit)
    | _ => ([], rest2)
  let fracDs := fracAndRest.1
  let rest4 := fracAndRest.2
  if intDs.isEmpty ∧ fracDs.isEmpty then none
  else
    let base : ℚ :=
      (digitsVal intDs : ℚ) + (digitsVal fracDs : ℚ) / ((10 : ℚ) ^ fracDs.length)
    let expPart : ℚ :=
      match rest4 with
      | 'e' :: '-' :: r => if (r.takeWhile Char.isDigit).isEmpty then 1 else (10 : ℚ) ^ (-(digitsVal (r.takeWhile Char.isDigit) : ℤ))
      | 'e' :: '+' :: r => if (r.takeWhile Char.isDigit).isEmpty then 1 else (10 : ℚ) ^ (digitsVal (r.takeWhile Char.isDigit))
      | 'e' :: r => if (r.takeWhile Char.isDigit).isEmpty then 1 else (10 : ℚ) ^ (digitsVal (r.takeWhile Char.isDigit))
      | 'E' :: '-' :: r => if (r.takeWhile Char.isDigit).isEmpty then 1 else (10 : ℚ) ^ (-(digitsVal (r.takeWhile Char.isDigit) : ℤ))
      | 'E' :: '+' :: r => if (r.takeWhile Char.isDigit).isEmpty then 1 else (10 : ℚ) ^ (digitsVal (r.takeWhile Char.isDigit))
      | 'E' :: r => if (r.takeWhile Char.isDigit).isEmpty then 1 else (10 : ℚ) ^ (digitsVal (r.takeWhile Char.isDigit))
      | _ => 1
    some (sign * base * expPart)

/-- Model of std::stof (what() text of a failure is the string stof). -/
def stofChars (cs : List Char) : Except String ℚ :=
  match stofScan cs with
  | none => Except.error "stof"
  | some v => Except.ok v

/-- Model of std::stod (what() text of a failure is the string stod). -/
def stodChars (cs : List Char) : Except String ℚ :=
  match stofScan cs with
  | none => Except.error "stod"
  | some v => Except.ok v

/-- Narrowing of the stored 64-bit json integer to int, as by the
static_cast inside nlohmann get over int (two-complement wrap). -/
def int32cast (n : Int) : Int :=
  ((n + 2147483648) % 4294967296) - 2147483648

/-- Conversion of a json number to the arithmetic value read by nlohmann
get over a floating type. -/
def Json.numVal : Json → ℚ
  | .jint n => (n : ℚ)
  | .jnum q => q
  | _ => 0

/-- Hex digit characters, lowercase, for control-character escapes. -/
def hexDigitChar (n : Nat) : Char :=
  "0123456789abcdef".data.getD n '0'

/-- Escape of one character per nlohmann dump: quote, backslash and the
short control escapes, then a u-escape for remaining control characters,
all other characters verbatim. -/
def escapeChar (c : Char) : List Char :=
  if c = '"' then [ '\\', '"' ]
  else if c = '\\' then [ '\\', '\\' ]
  else if c = '\x08' then [ '\\', 'b' ]
  else if c = '\x0c' then [ '\\', 'f' ]
  else if c = '\n' then [ '\\', 'n' ]
  else if c = '\r' then [ '\\', 'r' ]
  else if c = '\t' then [ '\\', 't' ]
  else if c.toNat < 32 then
    [ '\\', 'u', '0', '0', hexDigitChar (c.toNat / 16), hexDigitChar (c.toNat % 16) ]
  else [c]

/-- Escape of a character list per nlohmann dump. -/
def escChars (cs : List Char) : List Char :=
  match cs with
  | [] => []
  | c :: rest => escapeChar c ++ escChars rest

/-- Escape of a string per nlohmann dump. -/
def escapeString (s : String) : String :=
  String.mk (escChars s.data)

/-- Decimal rendering of a rational, used for the text form of floating
values; exact when the denominator divides a power of ten (always the case
for parsed json literals), a fraction form otherwise. The C++ shortest
round-trip float formatting is approximated by this exact form; none of the
dispatcher paths under verification depend on float formatting. -/
def ratToString (q : ℚ) : String :=
  if q.den = 1 then toString q.num
  else
    match (List.range 40).find? (fun k => (q * (10 : ℚ) ^ k).den = 1) with
    | some k =>
      let m := (q * (10 : ℚ) ^ k).num
      let digits := toString m.natAbs
      let digits := if digits.length ≤ k then
          String.mk (List.replicate (k + 1 - digits.length) '0') ++ digits
        else digits
      let point := digits.length - k
      (if m < 0 then "-" else "") ++
        (digits.take point) ++ "." ++ (digits.drop point)
    | none => toString q.num ++ "/" ++ toString q.den

mutual

/-- Serialization of a json value per nlohmann dump with no indentation:
compact separators, escaped strings. -/
def Json.dump : Json → String
  | .null => "null"
  | .jbool b => if b then "true" else "false"
  | .jint n => toString n
  | .jnum q => ratToString q
  | .jstr s => "\"" ++ escapeString s ++ "\""
  | .jarr xs => "[" ++ String.intercalate "," (Json.dumpList xs) ++ "]"
  | .jobj fs => "\x7b" ++ String.intercalate "," (Json.dumpFields fs) ++ "\x7d"

/-- Serialization of the elements of a json array. -/
def Json.dumpList : List Json → List String
  | [] => []
  | x :: xs => x.dump :: Json.dumpList xs

/-- Serialization of the members of a json object. -/
def Json.dumpFields : List (String × Json) → List String
  | [] => []
  | f :: fs => ("\"" ++ escapeString f.1 ++ "\":" ++ f.2.dump) :: Json.dumpFields fs

end

/-- Model of JsonToVariant (dispatcher.cpp lines 15-37): conversion of a
json value to a variant of the target type. The std::stoi, std::stof and
std::stod calls may throw; a thrown exception is the Except.error case,
carrying the what() text. A target type with no matching conversion yields
the invalid variant (the parameter slot stays unset). -/
def JsonToVariant (jVal : Json) (targetType : RType) : Except String Variant :=
  if targetType = RType.tInt then
    if jVal.isNumberInteger then
      match jVal with
      | .jint n => Except.ok (Variant.vint (int32cast n))
      | _ => Except.ok Variant.invalid
    else if jVal.isString then
      match jVal with
      | .jstr s => (stoiChars s.data).map Variant.vint
      | _ => Except.ok Variant.invalid
    else Except.ok Variant.invalid
  else if targetType = RType.tFloat then
    if jVal.isNumber then Except.ok (Variant.vfloat jVal.numVal)
    else if jVal.isString then
      match jVal with
      | .jstr s => (stofChars s.data).map Variant.vfloat
      | _ => Except.ok Variant.invalid
    else Except.ok Variant.invalid
  else if targetType = RType.tDouble then
    if jVal.isNumber then Except.ok (Variant.vdouble jVal.numVal)
    else if jVal.isString then
      match jVal with
      | .jstr s => (stodChars s.data).map Variant.vdouble
      | _ => Except.ok Variant.invalid
    else Except.ok Variant.invalid
  else if targetType = RType.tBool then
    if jVal.isBoolean then
      match jVal with
      | .jbool b => Except.ok (Variant.vbool b)
      | _ => Except.ok Variant.invalid
    else if jVal.isString then
      match jVal with
      | .jstr s => Except.ok (Variant.vbool (s = "true"))
      | _ => Except.ok Variant.invalid
    else Except.ok Variant.invalid
  else if targetType = RType.tString then
    match jVal with
    | .jstr s => Except.ok (Variant.vstr s)
    | other => Except.ok (Variant.vstr other.dump)
  else Except.ok Variant.invalid

/-- Result of one dispatcher stage: ret is an early return of a complete
response envelope, exn is a thrown C++ exception carrying its what() text. -/
inductive DErr where
  | ret : String → DErr
  | exn : String → DErr

/-- Error envelope as built by the hand-written returns in DispatchCommand:
the message is spliced into the JSON text verbatim, with no escaping. -/
def errEnv (msg : String) : String :=
  "\x7b\"error\": \"" ++ msg ++ "\"\x7d"

/-- Success envelope for a void invocation, a string constant in the code. -/
def voidEnv : String :=
  "\x7b\"result\": \"void\"\x7d"

/-- Split of a character list at its last dot (rfind of the dot), yielding
the parts before and after it. -/
def lastDotSplitChars : List Char → Option (List Char × List Char)
  | [] => none
  | c :: cs =>
    match lastDotSplitChars cs with
    | some (l, r) => some (c :: l, r)
    | none => if c = '.' then some ([], cs) else none

/-- Split of a string at its last dot, as by rfind and substr. -/
def lastDotSplit (s : String) : Option (String × String) :=
  match lastDotSplitChars s.data with
  | some (l, r) => some (String.mk l, String.mk r)
  | none => none

/-- Stage 1 of DispatchCommand (lines 49-66): context resolution. A
non-null class field wins, then a context field, then the method name is
split at its last dot; with no candidate the structural error names the
unresolvable method. The returned pair is the context and the method name
as left by this stage (still the full name unless the split happened). -/
def resolveContext (cmd : Json) (methodNameFull : String) :
    Except DErr (String × String) :=
  if jContains cmd "class" && !(jGet cmd "class").isNull then
    match asStringE (jGet cmd "class") with
    | Except.ok c => Except.ok (c, methodNameFull)
    | Except.error e => Except.error (DErr.exn e)
  else if jContains cmd "context" then
    match asStringE (jGet cmd "context") with
    | Except.ok c => Except.ok (c, methodNameFull)
    | Except.error e => Except.error (DErr.exn e)
  else
    match lastDotSplit methodNameFull with
    | some (l, r) => Except.ok (l, r)
    | none =>
      Except.error (DErr.ret (errEnv
        ("Invalid JSON command structure: missing class or context, and method name \x27"
          ++ methodNameFull ++ "\x27 has no dot separator.")))

/-- Stage 3 of DispatchCommand (lines 74-82): residual strip of a dotted
prefix when the method name was not already split by context resolution. -/
def stripResidual (methodNameFull methodName : String) : String :=
  if methodName = methodNameFull then
    match lastDotSplit methodName with
    | some (_, r) => r
    | none => methodName
  else methodName

/-- Stage 4 preamble of DispatchCommand (lines 85-93): unwrap of one level
of pointer or wrapper indirection on the instance type; a wrapper also
replaces the instance by its wrapped value. -/
def unwrapInstance (inst : Variant) : RType × Variant :=
  match inst.typeOf with
  | RType.tPtr inner => (inner, inst)
  | RType.tWrap inner =>
    (inner, match inst with
            | Variant.vwrap v => v
            | other => other)
  | other => (other, inst)

/-- Positional argument binding (lines 109-117): parameter index i takes
the i-th supplied value when present, else its slot stays the invalid
variant; coercion exceptions abort the loop in order. -/
def buildPositionalAux (i : Nat) (xs : List Json) :
    List ParamInfo → Except String (List Variant)
  | [] => Except.ok []
  | p :: ps =>
    match (if h : i < xs.length then JsonToVariant (xs.get ⟨i, h⟩) p.type
           else Except.ok Variant.invalid) with
    | Except.error e => Except.error e
    | Except.ok v =>
      match buildPositionalAux (i + 1) xs ps with
      | Except.error e => Except.error e
      | Except.ok rest => Except.ok (v :: rest)

/-- Named argument binding (lines 118-128): each parameter takes the value
stored under its declared name when present, else its slot stays unset. -/
def buildNamedAux (fields : List (String × Json)) :
    List ParamInfo → Except String (List Variant)
  | [] => Except.ok []
  | p :: ps =>
    match (match lookupField fields p.name with
           | some jv => JsonToVariant jv p.type
           | none => Except.ok Variant.invalid) with
    | Except.error e => Except.error e
    | Except.ok v =>
      match buildNamedAux fields ps with
      | Except.error e => Except.error e
      | Except.ok rest => Except.ok (v :: rest)

/-- Stage 5 of DispatchCommand (lines 101-130): the argument vector is
sized to the declared parameter count; an args array binds positionally, an
args object binds by name, any other args value (or no args field) leaves
every slot the invalid variant. -/
def buildArgs (jArgsOpt : Option Json) (paramInfos : List ParamInfo) :
    Except String (List Variant) :=
  match jArgsOpt with
  | none => Except.ok (List.replicate paramInfos.length Variant.invalid)
  | some jArgs =>
    match jArgs with
    | Json.jarr xs => buildPositionalAux 0 xs paramInfos
    | Json.jobj fields => buildNamedAux fields paramInfos
    | _ => Except.ok (List.replicate paramInfos.length Variant.invalid)

/-- Args field of a command as passed to buildArgs: present only when the
command object holds the key. -/
def argsOf (cmd : Json) : Option Json :=
  if jContains cmd "args" then some (jGet cmd "args") else none

/-- Text form of a result variant, per rttr variant to_string: strings
verbatim, numbers in decimal, booleans as the words true and false, no
registered conversion for the remaining kinds (empty string). -/
def variantToString : Variant → String
  | Variant.invalid => ""
  | Variant.vvoid => ""
  | Variant.vint n => toString n
  | Variant.vfloat q => ratToString q
  | Variant.vdouble q => ratToString q
  | Variant.vbool b => if b then "true" else "false"
  | Variant.vstr s => s
  | Variant.vobj _ => ""
  | Variant.vptr _ => ""
  | Variant.vwrap _ => ""

/-- Success envelope for a non-void result (line 156-159): the result
object is serialized by nlohmann dump, so the result text is escaped. -/
def resultEnv (s : String) : String :=
  Json.dump (Json.jobj [("result", Json.jstr s)])

/-- Stages 6 and 7 of DispatchCommand (lines 132-159): the switch supports
zero through six arguments and calls the method with exactly the built
vector; seven or more declared parameters hit the default case. An invalid
result variant is reported as the void envelope when the return type is
void and as an invocation failure otherwise (the code takes the invalid
variant for a completed void call, though rttr produces it only for a
failed invoke); a valid result, the valid void variant of a completed void
call included, is serialized through its string form. -/
def invokeAndSerialize (method : Method) (inst : Variant)
    (argsVariants : List Variant) : Except DErr String :=
  if 6 < argsVariants.length then
    Except.ok (errEnv "Too many arguments (max 6 supported)")
  else
    match method.invoke inst argsVariants with
    | Except.error e => Except.error (DErr.exn e)
    | Except.ok result =>
      if result = Variant.invalid then
        if method.retType = RType.tVoid then Except.ok voidEnv
        else Except.ok (errEnv "Invocation failed (returned invalid variant)")
      else Except.ok (resultEnv (variantToString result))

/-- Body of the try block of DispatchCommand (lines 41-159) on a parsed
command, from the method-field check to serialization. -/
def dispatchInner (catalog : List RClass) (registry : List (String × Variant))
    (cmd : Json) : Except DErr String :=
  if !(jContains cmd "method") then
    Except.ok (errEnv "Invalid JSON command structure: missing method")
  else
    match asStringE (jGet cmd "method") with
    | Except.error e => Except.error (DErr.exn e)
    | Except.ok methodNameFull =>
      match resolveContext cmd methodNameFull with
      | Except.error d => Except.error d
      | Except.ok (context, methodName0) =>
        let inst := InstanceRegistry.Get registry context
        if inst = Variant.invalid then
          Except.ok (errEnv ("Instance not found: " ++ context))
        else
          let methodName := stripResidual methodNameFull methodName0
          let tyInst := unwrapInstance inst
          match getMethod catalog tyInst.1 methodName with
          | none =>
            Except.ok (errEnv ("Method not found: " ++ methodName
              ++ " on type " ++ tyInst.1.name))
          | some method =>
            match buildArgs (argsOf cmd) method.params with
            | Except.error e => Except.error (DErr.exn e)
            | Except.ok argsVariants =>
              invokeAndSerialize method tyInst.2 argsVariants

/-- Catch clauses of DispatchCommand (lines 161-167): an early return
passes through, a thrown exception becomes the dispatch-exception
envelope. The catch-all for non-standard exceptions has no reachable
counterpart in the model, every modelled throw being a std::exception. -/
def catchResponse (r : Except DErr String) : String :=
  match r with
  | Except.ok response => response
  | Except.error (DErr.ret response) => response
  | Except.error (DErr.exn msg) => errEnv ("Dispatch exception: " ++ msg)

/-- Model of DispatchCommand (dispatcher.cpp lines 39-168). The input
models the outcome of nlohmann parse on the command text: a parsed value,
or a parse_error exception with its what() text. -/
def DispatchCommand (catalog : List RClass)
    (registry : List (String × Variant)) (input : Except String Json) :
    String :=
  match input with
  | Except.error msg => errEnv ("JSON parse error: " ++ msg)
  | Except.ok cmd => catchResponse (dispatchInner catalog registry cmd)

/-- Character-level worker of EscapeJson. -/
def escJsonChars : List Char → List Char
  | [] => []
  | c :: cs =>
    (if c = '"' then [ '\\', '"' ]
     else if c = '\\' then [ '\\', '\\' ]
     else if c.toNat ≤ 31 then
       [ '\\', 'u', '0', '0', hexDigitChar (c.toNat / 16), hexDigitChar (c.toNat % 16) ]
     else [c]) ++ escJsonChars cs

/-- Escape helper of manifest_generator.cpp (EscapeJson, lines 11-20):
quote and backslash escapes plus u-escapes for control characters; unlike
nlohmann dump there are no short control escapes. -/
def EscapeJson (s : String) : String :=
  String.mk (escJsonChars s.data)

/-- Parameter entry of a manifest function (lines 55-63). -/
def manifestParamChunk (p : ParamInfo) : String :=
  "\x7b" ++ "\"name\": \"" ++ EscapeJson p.name ++ "\","
    ++ "\"type\": \"" ++ EscapeJson p.type.name ++ "\"" ++ "\x7d"

/-- Function entry of the manifest (lines 38-66): qualified name, the
description metadata with empty-string default, and the parameter list. -/
def manifestFunctionChunk (className : String) (m : Method) : String :=
  "\x7b" ++ "\"name\": \"" ++ EscapeJson (className ++ "." ++ m.name) ++ "\","
    ++ "\"description\": \""
    ++ EscapeJson (match m.metaDescription with
                   | some d => d
                   | none => "") ++ "\","
    ++ "\"parameters\": ["
    ++ String.intercalate "," (m.params.map manifestParamChunk)
    ++ "]" ++ "\x7d"

/-- Pairs walked by the manifest loop: every method of every class-like
catalog entry, in catalog order. -/
def classMethodPairs (catalog : List RClass) : List (String × Method) :=
  (catalog.filter (fun t => t.isClass)).flatMap
    (fun t => t.methods.map (fun m => (t.name, m)))

/-- Entries of the functions array of the generated manifest, in emission
order (GenerateManifest lines 29-67, with the firstFunc comma flag realized
as an intercalation). -/
def manifestFunctions (catalog : List RClass) : List String :=
  (classMethodPairs catalog).map (fun p => manifestFunctionChunk p.1 p.2)

/-- Model of GenerateManifest (manifest_generator.cpp lines 22-72). -/
def GenerateManifest (catalog : List RClass) (appName : String) : String :=
  "\x7b" ++ "\"language\": \"cpp\"," ++ "\"appName\": \"" ++ EscapeJson appName
    ++ "\"," ++ "\"functions\": ["
    ++ String.intercalate "," (manifestFunctions catalog)
    ++ "]" ++ "\x7d"

/-! JSON syntax checker. The specification promises that every dispatch
response is a syntactically valid JSON object text; the checker below is a
standard JSON value parser (RFC 8259 grammar over characters), written from
the grammar in the specification sentence, with recursion bounded by fuel.
It returns the parsed value so the top-level key set can be inspected. -/

/-- JSON insignificant whitespace. -/
def isWsChar (c : Char) : Bool :=
  c = ' ' || c = '\n' || c = '\r' || c = '\t'

/-- Skip of insignificant whitespace. -/
def skipWs : List Char → List Char
  | [] => []
  | c :: cs => if isWsChar c then skipWs cs else c :: cs

/-- Hexadecimal digit test for u-escapes. -/
def isHexChar (c : Char) : Bool :=
  c.isDigit || ('a' ≤ c && c ≤ 'f') || ('A' ≤ c && c ≤ 'F')

/-- Value of a hexadecimal digit character. -/
def hexVal (c : Char) : Nat :=
  if c.isDigit then c.toNat - 48
  else if 'a' ≤ c && c ≤ 'f' then c.toNat - 87
  else if 'A' ≤ c && c ≤ 'F' then c.toNat - 55
  else 0

/-- Decoded character of a short escape. -/
def escDecode (e : Char) : Char :=
  if e = 'b' then '\x08'
  else if e = 'f' then '\x0c'
  else if e = 'n' then '\n'
  else if e = 'r' then '\r'
  else if e = 't' then '\t'
  else e

/-- Parse of a JSON string body after the opening quote: plain characters
from 0x20 up except quote and backslash, short escapes, and u-escapes of
four hexadecimal digits; yields the decoded content and the input after the
closing quote. Recursion is bounded by fuel (structural, so the checker
evaluates inside the kernel); one unit of fuel covers one produced
character, so fuel exceeding the input length never fails spuriously. -/
def parseStrBody : Nat -> List Char -> Option (List Char × List Char)
  | 0, _ => none
  | _ + 1, [] => none
  | fuel + 1, c :: cs =>
    if c = '"' then some ([], cs)
    else if c = '\\' then
      match cs with
      | [] => none
      | e :: cs2 =>
        if e = '"' || e = '\\' || e = '/' || e = 'b' || e = 'f' || e = 'n'
            || e = 'r' || e = 't' then
          match parseStrBody fuel cs2 with
          | some (body, rest) => some (escDecode e :: body, rest)
          | none => none
        else if e = 'u' then
          match cs2 with
          | h1 :: h2 :: h3 :: h4 :: cs3 =>
            if isHexChar h1 && isHexChar h2 && isHexChar h3 && isHexChar h4 then
              match parseStrBody fuel cs3 with
              | some (body, rest) =>
                some (Char.ofNat
                  (hexVal h1 * 4096 + hexVal h2 * 256 + hexVal h3 * 16 + hexVal h4)
                  :: body, rest)
              | none => none
            else none
          | _ => none
        else none
    else if c.toNat < 32 then none
    else
      match parseStrBody fuel cs with
      | some (body, rest) => some (c :: body, rest)
      | none => none

/-- Signed digit run of an exponent. -/
def parseExpDigits (mantissa : ℚ) (cs : List Char) : Option (ℚ × List Char) :=
  match cs with
  | '-' :: rest =>
    let ds := rest.takeWhile Char.isDigit
    if ds.isEmpty then none
    else some (mantissa * (10 : ℚ) ^ (-(digitsVal ds : ℤ)), rest.dropWhile Char.isDigit)
  | '+' :: rest =>
    let ds := rest.takeWhile Char.isDigit
    if ds.isEmpty then none
    else some (mantissa * (10 : ℚ) ^ (digitsVal ds), rest.dropWhile Char.isDigit)
  | _ =>
    let ds := cs.takeWhile Char.isDigit
    if ds.isEmpty then none
    else some (mantissa * (10 : ℚ) ^ (digitsVal ds), cs.dropWhile Char.isDigit)

/-- Parse of the optional exponent part of a JSON number, applied to the
mantissa; yields the value and remaining input, or none on a bare exponent
marker with no digits. -/
def parseExpPart (mantissa : ℚ) (cs : List Char) : Option (ℚ × List Char) :=
  match cs with
  | 'e' :: rest => parseExpDigits mantissa rest
  | 'E' :: rest => parseExpDigits mantissa rest
  | _ => some (mantissa, cs)

/-- Parse of a JSON number starting at its first character: optional minus,
an integer part with no leading zero, optional fraction, optional exponent.
An integer literal with no fraction and no exponent is an integer value. -/
def parseNumber (cs : List Char) : Option (Json × List Char) :=
  let negAndRest :=
    match cs with
    | '-' :: rest => (true, rest)
    | _ => (false, cs)
  let neg := negAndRest.1
  let cs1 := negAndRest.2
  let intDs := cs1.takeWhile Char.isDigit
  let cs2 := cs1.dropWhile Char.isDigit
  if intDs.isEmpty then none
  else if 1 < intDs.length ∧ intDs.headD '0' = '0' then none
  else
    let signQ : ℚ := if neg then -1 else 1
    match cs2 with
    | '.' :: cs3 =>
      let fracDs := cs3.takeWhile Char.isDigit
      let cs4 := cs3.dropWhile Char.isDigit
      if fracDs.isEmpty then none
      else
        let mant := signQ * ((digitsVal intDs : ℚ)
          + (digitsVal fracDs : ℚ) / ((10 : ℚ) ^ fracDs.length))
        match parseExpPart mant cs4 with
        | some (q, rest) => some (Json.jnum q, rest)
        | none => none
    | _ =>
      match cs2 with
      | 'e' :: _ =>
        match parseExpPart (signQ * (digitsVal intDs : ℚ)) cs2 with
        | some (q, rest) => some (Json.jnum q, rest)
        | none => none
      | 'E' :: _ =>
        match parseExpPart (signQ * (digitsVal intDs : ℚ)) cs2 with
        | some (q, rest) => some (Json.jnum q, rest)
        | none => none
      | _ =>
        let v : Int := if neg then -(digitsVal intDs : Int) else (digitsVal intDs : Int)
        some (Json.jint v, cs2)

/-- Three entry points of the JSON grammar, merged into one recursive
function so recursion is structural on fuel (the kernel can then evaluate
the checker on concrete inputs): a value, the members of an object after
its opening brace, the items of an array after its opening bracket. -/
inductive PMode where
  | value : PMode
  | members : PMode
  | items : PMode

/-- Result of one parseCore call, by mode. -/
inductive PRes where
  | v : Json -> PRes
  | ms : List (String × Json) -> PRes
  | is : List Json -> PRes

/-- Parse of one JSON value (mode value, whitespace before it skipped), of
a nonempty object member list (mode members) or of a nonempty array item
list (mode items), with recursion bounded by fuel. -/
def parseCore : Nat -> PMode -> List Char -> Option (PRes × List Char)
  | 0, _, _ => none
  | f + 1, PMode.value, cs =>
    match skipWs cs with
    | [] => none
    | c :: cs1 =>
      if c = '"' then
        match parseStrBody (cs1.length + 1) cs1 with
        | some (body, rest) => some (PRes.v (Json.jstr (String.mk body)), rest)
        | none => none
      else if c = Char.ofNat 123 then
        match skipWs cs1 with
        | [] => none
        | c2 :: cs2 =>
          if c2 = Char.ofNat 125 then some (PRes.v (Json.jobj []), cs2)
          else
            match parseCore f PMode.members (c2 :: cs2) with
            | some (PRes.ms fields, rest) => some (PRes.v (Json.jobj fields), rest)
            | _ => none
      else if c = '[' then
        match skipWs cs1 with
        | [] => none
        | c2 :: cs2 =>
          if c2 = ']' then some (PRes.v (Json.jarr []), cs2)
          else
            match parseCore f PMode.items (c2 :: cs2) with
            | some (PRes.is xs, rest) => some (PRes.v (Json.jarr xs), rest)
            | _ => none
      else if c = 't' then
        match cs1 with
        | 'r' :: 'u' :: 'e' :: rest => some (PRes.v (Json.jbool true), rest)
        | _ => none
      else if c = 'f' then
        match cs1 with
        | 'a' :: 'l' :: 's' :: 'e' :: rest => some (PRes.v (Json.jbool false), rest)
        | _ => none
      else if c = 'n' then
        match cs1 with
        | 'u' :: 'l' :: 'l' :: rest => some (PRes.v Json.null, rest)
        | _ => none
      else if c = '-' || c.isDigit then
        match parseNumber (c :: cs1) with
        | some (j, rest) => some (PRes.v j, rest)
        | none => none
      else none
  | f + 1, PMode.members, cs =>
    match skipWs cs with
    | '"' :: cs1 =>
      match parseStrBody (cs1.length + 1) cs1 with
      | some (key, cs2) =>
        match skipWs cs2 with
        | ':' :: cs3 =>
          match parseCore f PMode.value cs3 with
          | some (PRes.v v, cs4) =>
            match skipWs cs4 with
            | ',' :: cs5 =>
              match parseCore f PMode.members cs5 with
              | some (PRes.ms fields, rest) =>
                some (PRes.ms ((String.mk key, v) :: fields), rest)
              | _ => none
            | c :: cs5 =>
              if c = Char.ofNat 125 then some (PRes.ms [(String.mk key, v)], cs5)
              else none
            | [] => none
          | _ => none
        | _ => none
      | none => none
    | _ => none
  | f + 1, PMode.items, cs =>
    match parseCore f PMode.value cs with
    | some (PRes.v v, cs1) =>
      match skipWs cs1 with
      | ',' :: cs2 =>
        match parseCore f PMode.items cs2 with
        | some (PRes.is xs, rest) => some (PRes.is (v :: xs), rest)
        | _ => none
      | ']' :: cs2 => some (PRes.is [v], cs2)
      | _ => none
    | _ => none

/-- Parse of one JSON value: the value entry point of parseCore. -/
def parseValue (fuel : Nat) (cs : List Char) : Option (Json × List Char) :=
  match parseCore fuel PMode.value cs with
  | some (PRes.v j, rest) => some (j, rest)
  | _ => none

/-- Parse of a complete JSON text: one value with nothing but whitespace
after it. The fuel is generous; it only bounds recursion depth, which is
bounded by the text length. -/
def parseJsonText (s : String) : Option Json :=
  match parseValue (s.data.length + 3) s.data with
  | some (j, rest) => if skipWs rest = [] then some j else none
  | none => none

/-- Validity of a string as a JSON text. -/
def isValidJsonTextB (s : String) : Bool :=
  (parseJsonText s).isSome

/-- Test that a parsed value is an object whose key list is exactly the
single key result or exactly the single key error. -/
def topKeysOk : Json → Bool
  | Json.jobj fields =>
    decide (fields.map Prod.fst = ["result"]) || decide (fields.map Prod.fst = ["error"])
  | _ => false

/-- Conformance of a response string to the envelope contract: valid JSON
object text with exactly one of the two top-level keys. -/
def envelopeOkB (s : String) : Bool :=
  match parseJsonText s with
  | some j => topKeysOk j
  | none => false

/-! Cleanliness predicates. The hand-built error envelopes splice strings
into JSON text with no escaping, so the envelope is valid JSON only when
the spliced fragments contain no quote, backslash or control character;
these predicates name that condition. -/

/-- A character needing no JSON string escaping. -/
def cleanCharB (c : Char) : Bool :=
  !(c = '"') && !(c = '\\') && decide (32 ≤ c.toNat)

/-- A string needing no JSON string escaping. -/
def cleanStr (s : String) : Bool :=
  s.data.all cleanCharB

/-- Escape-freeness of the command fields whose string values are spliced
into hand-built envelopes: the method, class and context fields. -/
def cleanCmdFields (cmd : Json) : Prop :=
  (∀ s : String, jGet cmd "method" = Json.jstr s → cleanStr s = true)
  ∧ (∀ s : String, jGet cmd "class" = Json.jstr s → cleanStr s = true)
  ∧ (∀ s : String, jGet cmd "context" = Json.jstr s → cleanStr s = true)

/-- A registry whose instances yield escape-free type names (these names
are spliced into the method-not-found envelope). -/
def cleanRegistry (registry : List (String × Variant)) : Bool :=
  registry.all (fun p => cleanStr (unwrapInstance p.2).1.name)

/-- A catalog whose invokers only throw escape-free what() texts (these
texts are spliced into the dispatch-exception envelope). -/
def CleanInvokers (catalog : List RClass) : Prop :=
  ∀ c ∈ catalog, ∀ m ∈ c.methods, ∀ inst args e,
    m.invoke inst args = Except.error e → cleanStr e = true

/-- A parse outcome whose spliced fragments are escape-free: an escape-free
parse-error text, or a command all of whose strings are escape-free. -/
def CleanInput : Except String Json → Prop
  | Except.error m => cleanStr m = true
  | Except.ok cmd => cleanCmdFields cmd

/-! Concrete fixtures used by the witness and counterexample theorems. -/

/-- Invoker of the fixtures: a completed call of a void-returning method,
for which rttr invoke returns the empty-but-valid void-typed variant. -/
def voidInvoker : Variant → List Variant → Except String Variant :=
  fun _ _ => Except.ok Variant.vvoid

/-- Invoker modelling a failed rttr invoke (argument type mismatch and the
like): rttr then returns the invalid variant. -/
def failInvoker : Variant → List Variant → Except String Variant :=
  fun _ _ => Except.ok Variant.invalid

/-- Fixture method add(a: int) returning void. -/
def addMethod : Method :=
  { name := "add", params := [⟨"a", RType.tInt⟩], retType := RType.tVoid,
    metaDescription := none, invoke := voidInvoker }

/-- Fixture method sub(a: int, b: int) returning void. -/
def subMethod : Method :=
  { name := "sub", params := [⟨"a", RType.tInt⟩, ⟨"b", RType.tInt⟩],
    retType := RType.tVoid, metaDescription := none, invoke := voidInvoker }

/-- Fixture class Calc with the add and sub methods. -/
def calcClass : RClass :=
  { name := "Calc", isClass := true, methods := [addMethod, subMethod] }

/-- Fixture catalog holding Calc. -/
def calcCatalog : List RClass := [calcClass]

/-- Fixture registry with a Calc instance registered under Calc. -/
def calcRegistry : List (String × Variant) := [("Calc", Variant.vobj "Calc")]

/-- Seven integer parameters, one past the supported call ceiling. -/
def wideParams : List ParamInfo :=
  [⟨"a1", RType.tInt⟩, ⟨"a2", RType.tInt⟩, ⟨"a3", RType.tInt⟩,
   ⟨"a4", RType.tInt⟩, ⟨"a5", RType.tInt⟩, ⟨"a6", RType.tInt⟩,
   ⟨"a7", RType.tInt⟩]

/-- Fixture method with seven declared parameters. -/
def wideMethod : Method :=
  { name := "m7", params := wideParams, retType := RType.tVoid,
    metaDescription := none, invoke := voidInvoker }

/-- Fixture class holding the seven-parameter method. -/
def wideClass : RClass :=
  { name := "Wide", isClass := true, methods := [wideMethod] }

/-- Fixture catalog holding Wide. -/
def wideCatalog : List RClass := [wideClass]

/-- Fixture registry with a Wide instance registered under Wide. -/
def wideRegistry : List (String × Variant) := [("Wide", Variant.vobj "Wide")]

/-- Fixture method with a description, for the manifest claims. -/
def runMethod : Method :=
  { name := "run", params := [⟨"x", RType.tInt⟩], retType := RType.tVoid,
    metaDescription := some "runs the job", invoke := voidInvoker }

/-- Fixture method with no description, for the manifest claims. -/
def stopMethod : Method :=
  { name := "stop", params := [], retType := RType.tVoid,
    metaDescription := none, invoke := voidInvoker }

/-- Fixture manifest class A. -/
def clsA : RClass :=
  { name := "A", isClass := true, methods := [runMethod, stopMethod] }

/-- Fixture manifest class B. -/
def clsB : RClass :=
  { name := "B", isClass := true, methods := [stopMethod] }

/-- Fixture non-class catalog entry, skipped by the manifest walk. -/
def primInt : RClass :=
  { name := "int", isClass := false, methods := [] }

/-- Fixture manifest catalog. -/
def manifCatalog : List RClass := [clsA, primInt, clsB]

/-- Fixture command calling the seven-parameter method with no args. -/
def wideCmd : Json := Json.jobj [("method", Json.jstr "Wide.m7")]

/-- Fixture command calling the seven-parameter method with one string
argument whose integer coercion throws. -/
def wideCmdStr : Json :=
  Json.jobj [("method", Json.jstr "Wide.m7"),
             ("args", Json.jarr [Json.jstr "x"])]

/-- Fixture command supplying a non-numeric string for an integer
parameter of the Calc.add method. -/
def calcCmdBad : Json :=
  Json.jobj [("method", Json.jstr "Calc.add"),
             ("args", Json.jarr [Json.jstr "hello"])]

/-- Fixture command calling Calc.add with no args. -/
def calcCmd : Json := Json.jobj [("method", Json.jstr "Calc.add")]

/-- Fixture void method whose invocation fails (invalid result variant). -/
def brokenMethod : Method :=
  { name := "crash", params := [], retType := RType.tVoid,
    metaDescription := none, invoke := failInvoker }

/-- Fixture class holding the failing void method. -/
def badClass : RClass :=
  { name := "Bad", isClass := true, methods := [brokenMethod] }

/-- Fixture catalog holding Bad. -/
def badCatalog : List RClass := [badClass]

/-- Fixture registry with a Bad instance registered under Bad. -/
def badRegistry : List (String × Variant) := [("Bad", Variant.vobj "Bad")]

/-- Fixture command calling the failing void method. -/
def badCmd : Json := Json.jobj [("method", Json.jstr "Bad.crash")]

/-! Theorems. Helper lemmas come first, then one theorem per claim with
its witness or counterexample. -/

/-- Appending within bounds leaves positional binding unchanged. -/
theorem buildPositionalAux_append (params : List ParamInfo) :
    ∀ (i : Nat) (xs extra : List Json), i + params.length ≤ xs.length →
      buildPositionalAux i (xs ++ extra) params = buildPositionalAux i xs params := by
  induction params with
  | nil => intro i xs extra h; rfl
  | cons p ps ih =>
    intro i xs extra h
    have hi : i < xs.length := by
      have := h
      simp [List.length_cons] at this
      omega
    have hi2 : i < (xs ++ extra).length := by
      simp [List.length_append]
      omega
    have hget : (xs ++ extra).get ⟨i, hi2⟩ = xs.get ⟨i, hi⟩ := by
      simp only [List.get_eq_getElem]
      rw [List.getElem_append_left hi]
    simp only [buildPositionalAux, dif_pos hi, dif_pos hi2, hget]
    have hrec : buildPositionalAux (i + 1) (xs ++ extra) ps
        = buildPositionalAux (i + 1) xs ps := by
      apply ih
      simp [List.length_cons] at h
      omega
    rw [hrec]

/-- C3: coercion to an integer target accepts a native integer numeric
(narrowed to int), parses a numeric string through stoi, leaves the
parameter unset for a native floating numeric and for every other
non-string value; a failing stoi throws. This is the amended form: the
claim says every native numeric is truncated, but a floating numeric
produces no value. -/
theorem intCoercionBehaviour :
    (∀ n : Int, JsonToVariant (Json.jint n) RType.tInt
      = Except.ok (Variant.vint (int32cast n)))
  ∧ (∀ s : String, ∀ k : Int, stoiChars s.data = Except.ok k →
      JsonToVariant (Json.jstr s) RType.tInt = Except.ok (Variant.vint k))
  ∧ (∀ s : String, stoiChars s.data = Except.error "stoi" →
      JsonToVariant (Json.jstr s) RType.tInt = Except.error "stoi")
  ∧ (∀ q : ℚ, JsonToVariant (Json.jnum q) RType.tInt = Except.ok Variant.invalid)
  ∧ (∀ j : Json, j.isNumberInteger = false → j.isString = false →
      JsonToVariant j RType.tInt = Except.ok Variant.invalid) := by
  refine ⟨fun n => rfl, fun s k h => ?_, fun s h => ?_, fun q => rfl, fun j h1 h2 => ?_⟩
  · show (stoiChars s.data).map Variant.vint = _
    rw [h]; rfl
  · show (stoiChars s.data).map Variant.vint = _
    rw [h]; rfl
  · cases j <;> first | rfl | simp_all [Json.isNumberInteger, Json.isString]

/-- C3 counterexample: the native floating numeric 7/2 supplied to an
integer target produces no value at all (the invalid variant), not the
truncated integer 3 the claim promises. -/
theorem intCoercionFloatCounterexample :
    JsonToVariant (Json.jnum (7 / 2 : ℚ)) RType.tInt = Except.ok Variant.invalid
  ∧ JsonToVariant (Json.jnum (7 / 2 : ℚ)) RType.tInt
      ≠ Except.ok (Variant.vint 3) := by
  refine ⟨rfl, fun h => ?_⟩
  have h2 : Variant.invalid = Variant.vint 3 :=
    Except.ok.inj (show Except.ok Variant.invalid
      = Except.ok (Variant.vint 3) from h)
  exact absurd h2 (by decide)

/-- C3 witness: instances of the amended coercion clauses at concrete
inputs. -/
theorem intCoercionBehaviour_witness :
    JsonToVariant (Json.jint 41) RType.tInt = Except.ok (Variant.vint 41)
  ∧ JsonToVariant (Json.jstr "42") RType.tInt = Except.ok (Variant.vint 42)
  ∧ JsonToVariant (Json.jstr "hello") RType.tInt = Except.error "stoi"
  ∧ JsonToVariant (Json.jbool true) RType.tInt = Except.ok Variant.invalid := by
  refine ⟨?_, ?_, ?_, ?_⟩
  · exact intCoercionBehaviour.1 41
  · exact intCoercionBehaviour.2.1 "42" 42 rfl
  · exact intCoercionBehaviour.2.2.1 "hello" rfl
  · exact intCoercionBehaviour.2.2.2.2 (Json.jbool true) rfl rfl

/-- C9: an args field that is neither an array nor an object binds nothing,
exactly as an absent args field: every parameter slot stays the invalid
variant and argument building reports no error, so dispatch proceeds to
invocation. -/
theorem nonContainerArgsIgnored (j : Json) (params : List ParamInfo)
    (h1 : j.isArray = false) (h2 : j.isObject = false) :
    buildArgs (some j) params
      = Except.ok (List.replicate params.length Variant.invalid)
  ∧ buildArgs (some j) params = buildArgs none params := by
  cases j <;> simp_all [buildArgs, Json.isArray, Json.isObject]

/-- C9 witness: a numeric args field at a one-parameter method. -/
theorem nonContainerArgsIgnored_witness :
    buildArgs (some (Json.jint 5)) addMethod.params
      = Except.ok (List.replicate addMethod.params.length Variant.invalid)
  ∧ buildArgs (some (Json.jint 5)) addMethod.params
      = buildArgs none addMethod.params :=
  nonContainerArgsIgnored (Json.jint 5) addMethod.params rfl rfl

/-- C6: for a two-parameter method, positional binding of the args array
with the values in declaration order and named binding of the args object
keyed by the declared names build the same argument vector (coercions and
their exceptions included); and positional binding reads only the first
param-count entries, so extra supplied args are ignored. -/
theorem positionalNamedEquivalence (n1 n2 : String) (t1 t2 : RType)
    (v1 v2 : Json) (hne : n1 ≠ n2) :
    buildArgs (some (Json.jarr [v1, v2])) [⟨n1, t1⟩, ⟨n2, t2⟩]
      = buildArgs (some (Json.jobj [(n2, v2), (n1, v1)])) [⟨n1, t1⟩, ⟨n2, t2⟩]
  ∧ (∀ (params : List ParamInfo) (xs extra : List Json),
      params.length ≤ xs.length →
      buildArgs (some (Json.jarr (xs ++ extra))) params
        = buildArgs (some (Json.jarr xs)) params) := by
  constructor
  · have hlook1 : lookupField [(n2, v2), (n1, v1)] n1 = some v1 := by
      simp [lookupField, List.find?, Ne.symm hne]
    have hlook2 : lookupField [(n2, v2), (n1, v1)] n2 = some v2 := by
      simp [lookupField, List.find?]
    simp only [buildArgs, buildPositionalAux, buildNamedAux, hlook1, hlook2]
    cases hv1 : JsonToVariant v1 t1 <;> cases hv2 : JsonToVariant v2 t2 <;>
      simp [buildPositionalAux, buildNamedAux, hv1, hv2]
  · intro params xs extra h
    simp only [buildArgs]
    exact buildPositionalAux_append params 0 xs extra (by omega)

/-- C6 witness: the add-with-two-parameters fixture bound positionally and
by name, and an extra positional argument being ignored. -/
theorem positionalNamedEquivalence_witness :
    buildArgs (some (Json.jarr [Json.jint 1, Json.jint 2]))
        [⟨"a", RType.tInt⟩, ⟨"b", RType.tInt⟩]
      = buildArgs (some (Json.jobj [("b", Json.jint 2), ("a", Json.jint 1)]))
        [⟨"a", RType.tInt⟩, ⟨"b", RType.tInt⟩]
  ∧ (∀ (params : List ParamInfo) (xs extra : List Json),
      params.length ≤ xs.length →
      buildArgs (some (Json.jarr (xs ++ extra))) params
        = buildArgs (some (Json.jarr xs)) params) :=
  positionalNamedEquivalence "a" "b" RType.tInt RType.tInt
    (Json.jint 1) (Json.jint 2) (by decide)

/-- C10: with an explicit class field the context-resolution stage leaves
the method name whole, and the later residual strip then removes
everything up to the last dot unconditionally, whether or not the removed
prefix matches the resolved context; in particular Other.Deep.Z under
class X resolves to effective method Z. -/
theorem residualStripIgnoresPrefix (cmd : Json) (x m l r : String)
    (hc : jContains cmd "class" = true)
    (hv : jGet cmd "class" = Json.jstr x)
    (hdot : lastDotSplit m = some (l, r)) :
    resolveContext cmd m = Except.ok (x, m)
  ∧ stripResidual m m = r
  ∧ stripResidual "Other.Deep.Z" "Other.Deep.Z" = "Z" := by
  refine ⟨?_, ?_, rfl⟩
  · simp [resolveContext, hc, hv, Json.isNull, asStringE]
  · simp [stripResidual, hdot]

/-- C10 witness: the dotted method name Other.Deep.Z with class X. -/
theorem residualStripIgnoresPrefix_witness :
    resolveContext
        (Json.jobj [("class", Json.jstr "X"), ("method", Json.jstr "Other.Deep.Z")])
        "Other.Deep.Z"
      = Except.ok ("X", "Other.Deep.Z")
  ∧ stripResidual "Other.Deep.Z" "Other.Deep.Z" = "Z"
  ∧ stripResidual "Other.Deep.Z" "Other.Deep.Z" = "Z" :=
  residualStripIgnoresPrefix
    (Json.jobj [("class", Json.jstr "X"), ("method", Json.jstr "Other.Deep.Z")])
    "X" "Other.Deep.Z" "Other.Deep" "Z" rfl rfl rfl

/-- C4: context resolution priority. A class field holding a string wins;
with no class (or a null class) a context field holding a string is used;
with neither, the method name is split at its last dot into context and
effective method; with neither and no dot the structural error envelope
naming the method is returned. In particular class X with method Y.Z
resolves to context X, and the residual strip makes the effective method
Z. -/
theorem contextResolutionPriority (cmd : Json) (mFull : String) :
    (∀ x : String, jContains cmd "class" = true →
      jGet cmd "class" = Json.jstr x →
      resolveContext cmd mFull = Except.ok (x, mFull))
  ∧ ((jContains cmd "class" = false ∨ (jGet cmd "class").isNull = true) →
      ∀ c : String, jContains cmd "context" = true →
      jGet cmd "context" = Json.jstr c →
      resolveContext cmd mFull = Except.ok (c, mFull))
  ∧ ((jContains cmd "class" = false ∨ (jGet cmd "class").isNull = true) →
      jContains cmd "context" = false →
      ∀ l r : String, lastDotSplit mFull = some (l, r) →
      resolveContext cmd mFull = Except.ok (l, r))
  ∧ ((jContains cmd "class" = false ∨ (jGet cmd "class").isNull = true) →
      jContains cmd "context" = false →
      lastDotSplit mFull = none →
      resolveContext cmd mFull = Except.error (DErr.ret (errEnv
        ("Invalid JSON command structure: missing class or context, and method name \x27"
          ++ mFull ++ "\x27 has no dot separator."))))
  ∧ (resolveContext (Json.jobj [("class", Json.jstr "X"), ("method", Json.jstr "Y.Z")])
        "Y.Z" = Except.ok ("X", "Y.Z")
      ∧ stripResidual "Y.Z" "Y.Z" = "Z") := by
  refine ⟨fun x hc hv => ?_, fun hnc c hc hv => ?_, fun hnc hncx l r hdot => ?_,
    fun hnc hncx hdot => ?_, rfl, rfl⟩
  · simp [resolveContext, hc, hv, Json.isNull, asStringE]
  · rcases hnc with h | h
    · simp [resolveContext, h, hc, hv, asStringE]
    · simp [resolveContext, h, hc, hv, asStringE]
  · rcases hnc with h | h
    · simp [resolveContext, h, hncx, hdot]
    · simp [resolveContext, h, hncx, hdot]
  · rcases hnc with h | h
    · simp [resolveContext, h, hncx, hdot]
    · simp [resolveContext, h, hncx, hdot]

/-- C4 witness: each resolution clause at a concrete command. -/
theorem contextResolutionPriority_witness :
    resolveContext (Json.jobj [("class", Json.jstr "X"), ("method", Json.jstr "Y.Z")])
        "Y.Z" = Except.ok ("X", "Y.Z")
  ∧ resolveContext (Json.jobj [("context", Json.jstr "C"), ("method", Json.jstr "m")])
        "m" = Except.ok ("C", "m")
  ∧ resolveContext (Json.jobj [("method", Json.jstr "A.b")]) "A.b"
      = Except.ok ("A", "b")
  ∧ resolveContext (Json.jobj [("method", Json.jstr "solo")]) "solo"
      = Except.error (DErr.ret (errEnv
        ("Invalid JSON command structure: missing class or context, and method name \x27"
          ++ "solo" ++ "\x27 has no dot separator."))) := by
  refine ⟨?_, ?_, ?_, ?_⟩
  · exact (contextResolutionPriority
      (Json.jobj [("class", Json.jstr "X"), ("method", Json.jstr "Y.Z")]) "Y.Z").1
      "X" rfl rfl
  · exact (contextResolutionPriority
      (Json.jobj [("context", Json.jstr "C"), ("method", Json.jstr "m")]) "m").2.1
      (Or.inl rfl) "C" rfl rfl
  · exact (contextResolutionPriority
      (Json.jobj [("method", Json.jstr "A.b")]) "A.b").2.2.1
      (Or.inl rfl) rfl "A" "b" rfl
  · exact (contextResolutionPriority
      (Json.jobj [("method", Json.jstr "solo")]) "solo").2.2.2.1
      (Or.inl rfl) rfl rfl

/-- Positional binding yields one slot per declared parameter. -/
theorem buildPositionalAux_length (params : List ParamInfo) :
    ∀ (i : Nat) (xs : List Json) (avs : List Variant),
      buildPositionalAux i xs params = Except.ok avs →
      avs.length = params.length := by
  induction params with
  | nil =>
    intro i xs avs h
    simp only [buildPositionalAux] at h
    cases h
    rfl
  | cons p ps ih =>
    intro i xs avs h
    simp only [buildPositionalAux] at h
    cases hj : (if hlt : i < xs.length
        then JsonToVariant (xs.get ⟨i, hlt⟩) p.type
        else Except.ok Variant.invalid) with
    | error e => rw [hj] at h; cases h
    | ok v =>
      rw [hj] at h
      cases hr : buildPositionalAux (i + 1) xs ps with
      | error e => rw [hr] at h; cases h
      | ok rest =>
        rw [hr] at h
        cases h
        simp [ih (i + 1) xs rest hr]

/-- Named binding yields one slot per declared parameter. -/
theorem buildNamedAux_length (params : List ParamInfo) :
    ∀ (fields : List (String × Json)) (avs : List Variant),
      buildNamedAux fields params = Except.ok avs →
      avs.length = params.length := by
  induction params with
  | nil =>
    intro fields avs h
    simp only [buildNamedAux] at h
    cases h
    rfl
  | cons p ps ih =>
    intro fields avs h
    simp only [buildNamedAux] at h
    cases hj : (match lookupField fields p.name with
        | some jv => JsonToVariant jv p.type
        | none => Except.ok Variant.invalid) with
    | error e => rw [hj] at h; cases h
    | ok v =>
      rw [hj] at h
      cases hr : buildNamedAux fields ps with
      | error e => rw [hr] at h; cases h
      | ok rest =>
        rw [hr] at h
        cases h
        simp [ih fields rest hr]

/-- Argument building yields one slot per declared parameter. -/
theorem buildArgs_length (jArgsOpt : Option Json) (params : List ParamInfo)
    (avs : List Variant) (h : buildArgs jArgsOpt params = Except.ok avs) :
    avs.length = params.length := by
  cases jArgsOpt with
  | none =>
    simp only [buildArgs] at h
    cases h
    simp
  | some jArgs =>
    cases jArgs with
    | jarr xs => exact buildPositionalAux_length params 0 xs avs h
    | jobj fields => exact buildNamedAux_length params fields avs h
    | null => simp only [buildArgs] at h; cases h; simp
    | jbool b => simp only [buildArgs] at h; cases h; simp
    | jint n => simp only [buildArgs] at h; cases h; simp
    | jnum q => simp only [buildArgs] at h; cases h; simp
    | jstr s => simp only [buildArgs] at h; cases h; simp

/-- Pipeline lemma: when every resolution stage succeeds, dispatch is the
invoke-and-serialize stage applied to the built argument vector, under the
boundary catch. -/
theorem dispatch_reaches_invoke
    (catalog : List RClass) (registry : List (String × Variant)) (cmd : Json)
    (mFull ctx m0 : String) (inst : Variant) (method : Method)
    (avs : List Variant)
    (h1 : jContains cmd "method" = true)
    (h2 : asStringE (jGet cmd "method") = Except.ok mFull)
    (h3 : resolveContext cmd mFull = Except.ok (ctx, m0))
    (h4 : InstanceRegistry.Get registry ctx = inst)
    (h5 : inst ≠ Variant.invalid)
    (h6 : getMethod catalog (unwrapInstance inst).1 (stripResidual mFull m0)
        = some method)
    (h7 : buildArgs (argsOf cmd) method.params = Except.ok avs) :
    DispatchCommand catalog registry (Except.ok cmd)
      = catchResponse (invokeAndSerialize method (unwrapInstance inst).2 avs) := by
  simp only [DispatchCommand, dispatchInner, h1, h2, h3, h4, h6, h7,
    Bool.not_true, Bool.false_eq_true, if_false, if_neg h5]

/-- Pipeline lemma for a throwing argument build: the exception is caught
at the boundary and serialized as the dispatch-exception envelope. -/
theorem dispatch_args_exn
    (catalog : List RClass) (registry : List (String × Variant)) (cmd : Json)
    (mFull ctx m0 : String) (inst : Variant) (method : Method) (e : String)
    (h1 : jContains cmd "method" = true)
    (h2 : asStringE (jGet cmd "method") = Except.ok mFull)
    (h3 : resolveContext cmd mFull = Except.ok (ctx, m0))
    (h4 : InstanceRegistry.Get registry ctx = inst)
    (h5 : inst ≠ Variant.invalid)
    (h6 : getMethod catalog (unwrapInstance inst).1 (stripResidual mFull m0)
        = some method)
    (h7 : buildArgs (argsOf cmd) method.params = Except.error e) :
    DispatchCommand catalog registry (Except.ok cmd)
      = errEnv ("Dispatch exception: " ++ e) := by
  simp only [DispatchCommand, dispatchInner, h1, h2, h3, h4, h6, h7,
    Bool.not_true, Bool.false_eq_true, if_false, if_neg h5, catchResponse]

/-- C5: with resolution succeeding and the argument build raising no
exception, a method with more than six declared parameters yields exactly
the capacity-error envelope, and a method with at most six declared
parameters reaches the invoker with an argument vector of exactly the
declared parameter count. This is the amended form: the claim promises the
capacity envelope for any supplied arguments, but an argument whose
coercion throws aborts the build before the capacity check. -/
theorem capacityCeiling
    (catalog : List RClass) (registry : List (String × Variant)) (cmd : Json)
    (mFull ctx m0 : String) (inst : Variant) (method : Method)
    (avs : List Variant)
    (h1 : jContains cmd "method" = true)
    (h2 : asStringE (jGet cmd "method") = Except.ok mFull)
    (h3 : resolveContext cmd mFull = Except.ok (ctx, m0))
    (h4 : InstanceRegistry.Get registry ctx = inst)
    (h5 : inst ≠ Variant.invalid)
    (h6 : getMethod catalog (unwrapInstance inst).1 (stripResidual mFull m0)
        = some method)
    (h7 : buildArgs (argsOf cmd) method.params = Except.ok avs) :
    avs.length = method.params.length
  ∧ (6 < method.params.length →
      DispatchCommand catalog registry (Except.ok cmd)
        = errEnv "Too many arguments (max 6 supported)")
  ∧ (method.params.length ≤ 6 →
      DispatchCommand catalog registry (Except.ok cmd)
        = catchResponse (invokeAndSerialize method (unwrapInstance inst).2 avs)) := by
  have hlen : avs.length = method.params.length :=
    buildArgs_length (argsOf cmd) method.params avs h7
  refine ⟨hlen, fun hgt => ?_, fun _ => ?_⟩
  · rw [dispatch_reaches_invoke catalog registry cmd mFull ctx m0 inst method avs
      h1 h2 h3 h4 h5 h6 h7]
    have hgt2 : 6 < avs.length := by omega
    simp only [invokeAndSerialize, if_pos hgt2, catchResponse]
  · exact dispatch_reaches_invoke catalog registry cmd mFull ctx m0 inst method avs
      h1 h2 h3 h4 h5 h6 h7

/-- C5 counterexample: the seven-parameter method dispatched with a string
argument whose integer coercion throws yields the dispatch-exception
envelope, not the capacity envelope the claim promises for any supplied
arguments. -/
theorem capacityCeiling_counterexample :
    DispatchCommand wideCatalog wideRegistry (Except.ok wideCmdStr)
      = errEnv "Dispatch exception: stoi"
  ∧ errEnv "Dispatch exception: stoi"
      ≠ errEnv "Too many arguments (max 6 supported)" := by
  exact ⟨rfl, by decide⟩

/-- C5 witness: the seven-parameter method dispatched with no args yields
the capacity envelope. -/
theorem capacityCeiling_witness :
    (List.replicate 7 Variant.invalid).length = wideMethod.params.length
  ∧ (6 < wideMethod.params.length →
      DispatchCommand wideCatalog wideRegistry (Except.ok wideCmd)
        = errEnv "Too many arguments (max 6 supported)")
  ∧ (wideMethod.params.length ≤ 6 →
      DispatchCommand wideCatalog wideRegistry (Except.ok wideCmd)
        = catchResponse (invokeAndSerialize wideMethod
            (unwrapInstance (Variant.vobj "Wide")).2
            (List.replicate 7 Variant.invalid))) :=
  capacityCeiling wideCatalog wideRegistry wideCmd "Wide.m7" "Wide" "m7"
    (Variant.vobj "Wide") wideMethod (List.replicate 7 Variant.invalid)
    rfl rfl rfl rfl (by decide) rfl rfl

/-- C2: a non-numeric string supplied for an integer parameter makes stoi
throw, and the exception is surfaced at the boundary as the
dispatch-exception error envelope, so the call does not complete; the
silent unbound degradation the claim describes happens only for supplied
values that are neither an integer numeric nor a string. This is the
amended form: the claim says such a call never yields an error envelope. -/
theorem lossyCoercionAmended
    (catalog : List RClass) (registry : List (String × Variant)) (cmd : Json)
    (mFull ctx m0 : String) (inst : Variant) (method : Method)
    (s nm : String) (vs : List Json) (ps : List ParamInfo)
    (h1 : jContains cmd "method" = true)
    (h2 : asStringE (jGet cmd "method") = Except.ok mFull)
    (h3 : resolveContext cmd mFull = Except.ok (ctx, m0))
    (h4 : InstanceRegistry.Get registry ctx = inst)
    (h5 : inst ≠ Variant.invalid)
    (h6 : getMethod catalog (unwrapInstance inst).1 (stripResidual mFull m0)
        = some method)
    (hp : method.params = ⟨nm, RType.tInt⟩ :: ps)
    (ha : argsOf cmd = some (Json.jarr (Json.jstr s :: vs)))
    (hs : stoiChars s.data = Except.error "stoi") :
    DispatchCommand catalog registry (Except.ok cmd)
      = errEnv "Dispatch exception: stoi"
  ∧ (∀ j : Json, j.isNumberInteger = false → j.isString = false →
      JsonToVariant j RType.tInt = Except.ok Variant.invalid) := by
  constructor
  · have hbuild : buildArgs (argsOf cmd) method.params = Except.error "stoi" := by
      rw [ha, hp]
      show buildPositionalAux 0 (Json.jstr s :: vs) (⟨nm, RType.tInt⟩ :: ps)
        = Except.error "stoi"
      have hco : JsonToVariant (Json.jstr s) RType.tInt = Except.error "stoi" := by
        show (stoiChars s.data).map Variant.vint = _
        rw [hs]; rfl
      simp only [buildPositionalAux, List.length_cons]
      rw [dif_pos (by omega : 0 < vs.length + 1)]
      simp only [List.get, hco]
    exact dispatch_args_exn catalog registry cmd mFull ctx m0 inst method "stoi"
      h1 h2 h3 h4 h5 h6 hbuild
  · intro j hj1 hj2
    cases j <;> first | rfl | simp_all [Json.isNumberInteger, Json.isString]

/-- C2 counterexample: Calc.add called with args containing the string
hello yields the dispatch-exception error envelope (the third conjunct
exhibits it as a parsed error envelope), refuting the claim that such a
call never yields an error envelope. -/
theorem lossyCoercion_counterexample :
    DispatchCommand calcCatalog calcRegistry (Except.ok calcCmdBad)
      = errEnv "Dispatch exception: stoi"
  ∧ parseJsonText (errEnv "Dispatch exception: stoi")
      = some (Json.jobj [("error", Json.jstr "Dispatch exception: stoi")]) :=
  ⟨rfl, rfl⟩

/-- C2 witness: the amended clauses at the Calc.add fixture. -/
theorem lossyCoercionAmended_witness :
    DispatchCommand calcCatalog calcRegistry (Except.ok calcCmdBad)
      = errEnv "Dispatch exception: stoi"
  ∧ (∀ j : Json, j.isNumberInteger = false → j.isString = false →
      JsonToVariant j RType.tInt = Except.ok Variant.invalid) :=
  lossyCoercionAmended calcCatalog calcRegistry calcCmdBad "Calc.add" "Calc"
    "add" (Variant.vobj "Calc") addMethod "hello" "a" [] []
    rfl rfl rfl rfl (by decide) rfl rfl rfl rfl

/-- C8: the claimed behaviour is the documented intent but the code
misfires. Per rttr, a completed invoke of a void-returning method yields
the empty-but-valid void-typed variant, so the dispatcher falls past the
invalid-result branch to to_string (empty for void) and returns the text
with an empty result value, not the claimed result-void text; that
claimed text is produced exactly when the invoke of a void-returning
method fails (invalid result variant). First conjunct: the successful
void dispatch of Calc.add; second: its response differs from the claimed
text; third: the failing void invoke of Bad.crash yields the claimed
text. -/
theorem voidSuccessDivergence :
    DispatchCommand calcCatalog calcRegistry (Except.ok calcCmd)
      = "\x7b\"result\":\"\"\x7d"
  ∧ DispatchCommand calcCatalog calcRegistry (Except.ok calcCmd)
      ≠ "\x7b\"result\": \"void\"\x7d"
  ∧ DispatchCommand badCatalog badRegistry (Except.ok badCmd)
      = "\x7b\"result\": \"void\"\x7d" :=
  ⟨ rfl, by decide, rfl⟩

/-- C7: the functions array of the generated manifest carries exactly one
entry per method of every class-like catalog entry (the array is the image
of the class-method walk), permuting the catalog only permutes the entries,
and whenever the emitted entries are pairwise distinct each method of each
class-like entry is counted exactly once. -/
theorem manifestRoundTrip :
    (∀ catalog : List RClass, manifestFunctions catalog
      = (classMethodPairs catalog).map (fun p => manifestFunctionChunk p.1 p.2))
  ∧ (∀ c1 c2 : List RClass, c1.Perm c2 →
      (manifestFunctions c1).Perm (manifestFunctions c2))
  ∧ (∀ (catalog : List RClass) (t : RClass) (m : Method),
      (manifestFunctions catalog).Nodup → t ∈ catalog → t.isClass = true →
      m ∈ t.methods →
      (manifestFunctions catalog).count (manifestFunctionChunk t.name m) = 1) := by
  refine ⟨fun catalog => rfl, fun c1 c2 hp => ?_, fun catalog t m hnd ht hcls hm => ?_⟩
  · exact (((hp.filter _).flatMap_right _).map _)
  · have hpair : (t.name, m) ∈ classMethodPairs catalog := by
      refine List.mem_flatMap.mpr ⟨t, List.mem_filter.mpr ⟨ht, hcls⟩, ?_⟩
      exact List.mem_map.mpr ⟨m, hm, rfl⟩
    have hmem : manifestFunctionChunk t.name m ∈ manifestFunctions catalog :=
      List.mem_map.mpr ⟨(t.name, m), hpair, rfl⟩
    exact List.count_eq_one_of_mem hnd hmem

/-- C7 witness: the fixture catalog with two classes and a non-class
entry, a concrete permutation of it, and the exact-count of one of its
methods. -/
theorem manifestRoundTrip_witness :
    manifestFunctions manifCatalog
      = (classMethodPairs manifCatalog).map (fun p => manifestFunctionChunk p.1 p.2)
  ∧ (manifestFunctions manifCatalog).Perm
      (manifestFunctions [primInt, clsA, clsB])
  ∧ (manifestFunctions manifCatalog).count
      (manifestFunctionChunk clsA.name runMethod) = 1 := by
  refine ⟨manifestRoundTrip.1 manifCatalog, ?_, ?_⟩
  · exact manifestRoundTrip.2.1 manifCatalog [primInt, clsA, clsB]
      (List.Perm.swap primInt clsA [clsB])
  · exact manifestRoundTrip.2.2 manifCatalog clsA runMethod (by decide)
      (List.mem_cons_self clsA [primInt, clsB]) rfl
      (List.mem_cons_self runMethod [stopMethod])

/-- Appending preserves escape-freeness. -/
theorem cleanStr_append (a b : String) (ha : cleanStr a = true)
    (hb : cleanStr b = true) : cleanStr (a ++ b) = true := by
  simp only [cleanStr, String.data_append, List.all_append]
  simp only [cleanStr] at ha hb
  rw [ha, hb]
  rfl

/-- The string parser consumes an escape-free body up to its closing
quote verbatim, for any fuel past the body length. -/
theorem parseStrBody_clean (cs : List Char) :
    ∀ (rest : List Char) (f : Nat), cs.length < f → cs.all cleanCharB = true →
      parseStrBody f (cs ++ '"' :: rest) = some (cs, rest) := by
  induction cs with
  | nil =>
    intro rest f hf h
    match f, hf with
    | f + 1, _ => simp [parseStrBody]
  | cons c cs ih =>
    intro rest f hf h
    simp only [List.all_cons, Bool.and_eq_true] at h
    obtain ⟨hc, hcs⟩ := h
    simp only [cleanCharB, Bool.and_eq_true, Bool.not_eq_true', decide_eq_false_iff_not,
      decide_eq_true_eq] at hc
    obtain ⟨⟨hq, hbs⟩, hge⟩ := hc
    match f, hf with
    | f + 1, hf =>
      simp only [List.cons_append, parseStrBody, if_neg hq, if_neg hbs,
        if_neg (by omega : ¬ c.toNat < 32), List.append_eq]
      rw [ih rest f (by simpa using hf) hcs]

/-- Hex digit characters are hexadecimal. -/
theorem hexDigitChar_isHex : ∀ n : Nat, n < 16 → isHexChar (hexDigitChar n) = true := by
  decide

/-- The string parser accepts any dump-escaped body up to its closing
quote, for any fuel past the body length. -/
theorem parseStrBody_esc (cs : List Char) :
    ∀ (rest : List Char) (f : Nat), cs.length < f →
      ∃ body, parseStrBody f (escChars cs ++ '"' :: rest) = some (body, rest) := by
  induction cs with
  | nil =>
    intro rest f hf
    match f, hf with
    | f + 1, _ => exact ⟨[], by simp [escChars, parseStrBody]⟩
  | cons c cs ih =>
    intro rest f hf
    match f, hf with
    | f + 1, hf =>
    obtain ⟨body, hbody⟩ := ih rest f (by simpa using hf)
    by_cases h1 : c = '"'
    · subst h1
      refine ⟨escDecode '"' :: body, ?_⟩
      simp only [escChars, escapeChar, if_pos rfl, List.cons_append, List.nil_append,
        List.append_assoc]
      simp [parseStrBody, hbody]
    by_cases h2 : c = '\\'
    · subst h2
      refine ⟨escDecode '\\' :: body, ?_⟩
      simp only [escChars, escapeChar, if_neg (by decide : ¬ ('\\' : Char) = '"'),
        if_pos rfl, List.cons_append, List.nil_append, List.append_assoc]
      simp [parseStrBody, hbody]
    by_cases h3 : c = '\x08'
    · subst h3
      refine ⟨escDecode 'b' :: body, ?_⟩
      simp only [escChars, escapeChar, if_neg h1, if_neg h2, if_pos rfl,
        List.cons_append, List.nil_append, List.append_assoc]
      simp [parseStrBody, hbody]
    by_cases h4 : c = '\x0c'
    · subst h4
      refine ⟨escDecode 'f' :: body, ?_⟩
      simp only [escChars, escapeChar, if_neg h1, if_neg h2, if_neg h3, if_pos rfl,
        List.cons_append, List.nil_append, List.append_assoc]
      simp [parseStrBody, hbody]
    by_cases h5 : c = '\n'
    · subst h5
      refine ⟨escDecode 'n' :: body, ?_⟩
      simp only [escChars, escapeChar, if_neg h1, if_neg h2, if_neg h3, if_neg h4,
        if_pos rfl, List.cons_append, List.nil_append, List.append_assoc]
      simp [parseStrBody, hbody]
    by_cases h6 : c = '\r'
    · subst h6
      refine ⟨escDecode 'r' :: body, ?_⟩
      simp only [escChars, escapeChar, if_neg h1, if_neg h2, if_neg h3, if_neg h4,
        if_neg h5, if_pos rfl, List.cons_append, List.nil_append, List.append_assoc]
      simp [parseStrBody, hbody]
    by_cases h7 : c = '\t'
    · subst h7
      refine ⟨escDecode 't' :: body, ?_⟩
      simp only [escChars, escapeChar, if_neg h1, if_neg h2, if_neg h3, if_neg h4,
        if_neg h5, if_neg h6, if_pos rfl, List.cons_append, List.nil_append,
        List.append_assoc]
      simp [parseStrBody, hbody]
    by_cases h8 : c.toNat < 32
    · refine ⟨Char.ofNat (hexVal '0' * 4096 + hexVal '0' * 256
        + hexVal (hexDigitChar (c.toNat / 16)) * 16
        + hexVal (hexDigitChar (c.toNat % 16))) :: body, ?_⟩
      simp only [escChars, escapeChar, if_neg h1, if_neg h2, if_neg h3, if_neg h4,
        if_neg h5, if_neg h6, if_neg h7, if_pos h8, List.cons_append, List.nil_append,
        List.append_assoc]
      have hhex1 : isHexChar (hexDigitChar (c.toNat / 16)) = true :=
        hexDigitChar_isHex _ (by omega)
      have hhex2 : isHexChar (hexDigitChar (c.toNat % 16)) = true :=
        hexDigitChar_isHex _ (Nat.mod_lt _ (by omega))
      simp [parseStrBody, hbody, hhex1, hhex2,
        (by decide : isHexChar '0' = true)]
    · refine ⟨c :: body, ?_⟩
      simp only [escChars, escapeChar, if_neg h1, if_neg h2, if_neg h3, if_neg h4,
        if_neg h5, if_neg h6, if_neg h7, if_neg h8, List.cons_append, List.nil_append]
      simp only [parseStrBody, if_neg h1, if_neg h2, if_neg h8]
      rw [hbody]

/-- The string parser applied at the fuel the value parser passes (input
length plus one) consumes an escape-free body verbatim. -/
theorem parseStrBody_atLen (cs rest : List Char) (h : cs.all cleanCharB = true) :
    parseStrBody ((cs ++ '"' :: rest).length + 1) (cs ++ '"' :: rest)
      = some (cs, rest) :=
  parseStrBody_clean cs rest _ (by simp [List.length_append]; omega) h

/-- A quoted escape-free string preceded by one space parses as a value. -/
theorem parseCore_strValue (msg : String) (h : cleanStr msg = true)
    (f : Nat) (tail : List Char) :
    parseCore (f + 1) PMode.value (' ' :: '"' :: (msg.data ++ '"' :: tail))
      = some (PRes.v (Json.jstr msg), tail) := by
  have hbody := parseStrBody_clean msg.data tail
    (msg.length + (tail.length + 1) + 1)
    (by show msg.data.length < msg.data.length + (tail.length + 1) + 1; omega) h
  simp only [parseCore]
  simp [skipWs, isWsChar, hbody]

/-- The single member list of a hand-built error envelope parses up to the
closing brace. -/
theorem parseCore_errMembers (msg : String) (h : cleanStr msg = true)
    (f : Nat) :
    parseCore (f + 2) PMode.members
        ('"' :: 'e' :: 'r' :: 'r' :: 'o' :: 'r' :: '"' :: ':' :: ' ' :: '"'
          :: (msg.data ++ '"' :: [Char.ofNat 125]))
      = some (PRes.ms [("error", Json.jstr msg)], []) := by
  have hkey : parseStrBody
      (('e' :: 'r' :: 'r' :: 'o' :: 'r' :: '"' :: ':' :: ' ' :: '"'
        :: (msg.data ++ '"' :: [Char.ofNat 125])).length + 1)
      ('e' :: 'r' :: 'r' :: 'o' :: 'r' :: '"' :: ':' :: ' ' :: '"'
        :: (msg.data ++ '"' :: [Char.ofNat 125]))
      = some ("error".data, ':' :: ' ' :: '"' :: (msg.data ++ '"' :: [Char.ofNat 125])) :=
    parseStrBody_clean "error".data
      (':' :: ' ' :: '"' :: (msg.data ++ '"' :: [Char.ofNat 125])) _
      (by simp [List.length_append]) (by decide)
  have hkey2 := hkey
  simp at hkey2
  have hval := parseCore_strValue msg h f [Char.ofNat 125]
  have hstr : parseStrBody (msg.length + 2 + 1) (msg.data ++ ['"', Char.ofNat 125])
      = some (msg.data, [Char.ofNat 125]) :=
    parseStrBody_clean msg.data [Char.ofNat 125] _
      (by show msg.data.length < msg.data.length + 2 + 1; omega) h
  show parseCore ((f + 1) + 1) PMode.members _ = _
  simp only [parseCore]
  simp [skipWs, isWsChar, hkey, hkey2, hval, hstr]

/-- A hand-built error envelope with an escape-free message parses as the
object with the single error key. -/
theorem parse_errEnv (msg : String) (h : cleanStr msg = true) (f : Nat) :
    parseCore (f + 3) PMode.value ((errEnv msg).data)
      = some (PRes.v (Json.jobj [("error", Json.jstr msg)]), []) := by
  have hdata : (errEnv msg).data
      = Char.ofNat 123 :: '"' :: 'e' :: 'r' :: 'r' :: 'o' :: 'r' :: '"' :: ':'
          :: ' ' :: '"' :: (msg.data ++ '"' :: [Char.ofNat 125]) := by
    show ("\x7b\"error\": \"" ++ msg ++ "\"\x7d").data = _
    rw [String.data_append, String.data_append]
    show ([Char.ofNat 123, '"', 'e', 'r', 'r', 'o', 'r', '"', ':', ' ', '"']
      ++ msg.data) ++ ['"', Char.ofNat 125] = _
    simp
  have hmem := parseCore_errMembers msg h f
  rw [hdata]
  show parseCore ((f + 2) + 1) PMode.value _ = _
  rw [parseCore]
  simp [skipWs, isWsChar, hmem]

/-- Conformance of any hand-built error envelope with an escape-free
message. -/
theorem envelopeOkB_errEnv (msg : String) (h : cleanStr msg = true) :
    envelopeOkB (errEnv msg) = true := by
  have hp := parse_errEnv msg h ((errEnv msg).data.length)
  simp only [envelopeOkB, parseJsonText, parseValue, hp]
  simp [topKeysOk, skipWs]

/-- Escaping never shortens a character list. -/
theorem escChars_length_ge (cs : List Char) :
    cs.length ≤ (escChars cs).length := by
  induction cs with
  | nil => simp [escChars]
  | cons c cs ih =>
    have h1 : 1 ≤ (escapeChar c).length := by
      simp only [escapeChar]
      split <;> try simp
      split <;> try simp
      split <;> try simp
      split <;> try simp
      split <;> try simp
      split <;> try simp
      split <;> try simp
      split <;> simp
    simp only [escChars, List.length_append, List.length_cons]
    omega

/-- A quoted dump-escaped string parses as a value. -/
theorem parseCore_escValue (s : String) (f : Nat) (tail : List Char) :
    ∃ body, parseCore (f + 1) PMode.value ('"' :: (escChars s.data ++ '"' :: tail))
      = some (PRes.v (Json.jstr (String.mk body)), tail) := by
  obtain ⟨body, hbody⟩ := parseStrBody_esc s.data tail
    ((escChars s.data ++ '"' :: tail).length + 1)
    (by simp only [List.length_append, List.length_cons]
        have := escChars_length_ge s.data
        omega)
  refine ⟨body, ?_⟩
  have hbody2 := hbody
  simp at hbody2
  simp only [parseCore]
  simp [skipWs, isWsChar, hbody, hbody2]

/-- The single member list of a dump-built result envelope parses up to
the closing brace. -/
theorem parseCore_resultMembers (s : String) (f : Nat) :
    ∃ body, parseCore (f + 2) PMode.members
        ('"' :: 'r' :: 'e' :: 's' :: 'u' :: 'l' :: 't' :: '"' :: ':' :: '"'
          :: (escChars s.data ++ '"' :: [Char.ofNat 125]))
      = some (PRes.ms [("result", Json.jstr (String.mk body))], []) := by
  have hkey : parseStrBody
      (('r' :: 'e' :: 's' :: 'u' :: 'l' :: 't' :: '"' :: ':' :: '"'
        :: (escChars s.data ++ '"' :: [Char.ofNat 125])).length + 1)
      ('r' :: 'e' :: 's' :: 'u' :: 'l' :: 't' :: '"' :: ':' :: '"'
        :: (escChars s.data ++ '"' :: [Char.ofNat 125]))
      = some ("result".data,
          ':' :: '"' :: (escChars s.data ++ '"' :: [Char.ofNat 125])) :=
    parseStrBody_clean "result".data
      (':' :: '"' :: (escChars s.data ++ '"' :: [Char.ofNat 125])) _
      (by simp [List.length_append]) (by decide)
  have hkey2 := hkey
  simp at hkey2
  obtain ⟨body, hval⟩ := parseCore_escValue s f [Char.ofNat 125]
  have hval2 := hval
  simp only [parseCore] at hval2
  refine ⟨body, ?_⟩
  show parseCore ((f + 1) + 1) PMode.members _ = _
  rw [parseCore]
  simp [skipWs, isWsChar, hkey, hkey2, hval, hval2]

/-- A dump-built result envelope parses as the object with the single
result key, whatever the embedded result text. -/
theorem parse_resultEnv (s : String) (f : Nat) :
    ∃ body, parseCore (f + 3) PMode.value ((resultEnv s).data)
      = some (PRes.v (Json.jobj [("result", Json.jstr (String.mk body))]), []) := by
  have hdata : (resultEnv s).data
      = Char.ofNat 123 :: '"' :: 'r' :: 'e' :: 's' :: 'u' :: 'l' :: 't' :: '"'
          :: ':' :: '"' :: (escChars s.data ++ '"' :: [Char.ofNat 125]) := by
    show (Json.dump (Json.jobj [("result", Json.jstr s)])).data = _
    rw [Json.dump]
    simp only [Json.dumpFields, Json.dump, Json.dumpList]
    rw [show String.intercalate ","
      ["\"" ++ escapeString "result" ++ "\":" ++ ("\"" ++ escapeString s ++ "\"")]
      = "\"" ++ escapeString "result" ++ "\":" ++ ("\"" ++ escapeString s ++ "\"") from rfl]
    rw [show escapeString "result" = "result" from rfl]
    simp only [String.data_append]
    show ("\x7b" : String).data ++ (("\"" : String).data ++ ("result" : String).data
      ++ ("\":" : String).data ++ (("\"" : String).data ++ (escapeString s).data
      ++ ("\"" : String).data)) ++ ("\x7d" : String).data = _
    show [Char.ofNat 123] ++ (['"'] ++ ['r', 'e', 's', 'u', 'l', 't']
      ++ ['"', ':'] ++ (['"'] ++ escChars s.data ++ ['"'])) ++ [Char.ofNat 125] = _
    simp
  obtain ⟨body, hmem⟩ := parseCore_resultMembers s f
  refine ⟨body, ?_⟩
  rw [hdata]
  show parseCore ((f + 2) + 1) PMode.value _ = _
  rw [parseCore]
  simp [skipWs, isWsChar, hmem]

/-- Conformance of the dump-built result envelope for any result text. -/
theorem envelopeOkB_resultEnv (s : String) :
    envelopeOkB (resultEnv s) = true := by
  obtain ⟨body, hp⟩ := parse_resultEnv s ((resultEnv s).data.length)
  simp only [envelopeOkB, parseJsonText, parseValue, hp]
  simp [topKeysOk, skipWs]

/-- Conformance of the constant void envelope. -/
theorem envelopeOkB_voidEnv : envelopeOkB voidEnv = true := by decide

/-- The what() text of a string-conversion type error is escape-free. -/
theorem asStringE_error_clean (j : Json) (e : String)
    (h : asStringE j = Except.error e) : cleanStr e = true := by
  cases j <;> simp only [asStringE] at h <;> try exact Except.noConfusion h
  all_goals
    injection h with h2
    rw [← h2]
    simp only [Json.typeName]
    decide

/-- A successful string conversion identifies the value as that string. -/
theorem asStringE_ok (j : Json) (s : String)
    (h : asStringE j = Except.ok s) : j = Json.jstr s := by
  cases j <;> simp only [asStringE] at h <;> first
    | (injection h with h2; rw [h2])
    | cases h

/-- Both parts of a last-dot split draw their characters from the input. -/
theorem lastDotSplitChars_subset (cs : List Char) :
    ∀ l r : List Char, lastDotSplitChars cs = some (l, r) →
      (∀ c ∈ l, c ∈ cs) ∧ (∀ c ∈ r, c ∈ cs) := by
  induction cs with
  | nil => intro l r h; cases h
  | cons c cs ih =>
    intro l r h
    simp only [lastDotSplitChars] at h
    cases hrec : lastDotSplitChars cs with
    | some pair =>
      obtain ⟨l2, r2⟩ := pair
      rw [hrec] at h
      injection h with h2
      injection h2 with hl hr
      obtain ⟨hsl, hsr⟩ := ih l2 r2 hrec
      subst hl; subst hr
      constructor
      · intro x hx
        rcases List.mem_cons.mp hx with h3 | h3
        · exact List.mem_cons.mpr (Or.inl h3)
        · exact List.mem_cons.mpr (Or.inr (hsl x h3))
      · intro x hx
        exact List.mem_cons.mpr (Or.inr (hsr x hx))
    | none =>
      rw [hrec] at h
      by_cases hc : c = '.'
      · rw [if_pos hc] at h
        injection h with h2
        injection h2 with hl hr
        subst hl; subst hr
        exact ⟨fun x hx => absurd hx (List.not_mem_nil x),
          fun x hx => List.mem_cons.mpr (Or.inr hx)⟩
      · rw [if_neg hc] at h
        cases h

/-- Escape-freeness restricts to character sublists. -/
theorem all_clean_subset (s t : List Char) (hsub : ∀ c ∈ t, c ∈ s)
    (h : s.all cleanCharB = true) : t.all cleanCharB = true := by
  rw [List.all_eq_true] at h ⊢
  exact fun c hc => h c (hsub c hc)

/-- Both parts of a last-dot split of an escape-free string are
escape-free. -/
theorem lastDotSplit_clean (s : String) (l r : String)
    (hs : cleanStr s = true) (h : lastDotSplit s = some (l, r)) :
    cleanStr l = true ∧ cleanStr r = true := by
  simp only [lastDotSplit] at h
  cases hrec : lastDotSplitChars s.data with
  | some pair =>
    obtain ⟨l2, r2⟩ := pair
    rw [hrec] at h
    injection h with h2
    injection h2 with hl hr
    obtain ⟨hsl, hsr⟩ := lastDotSplitChars_subset s.data l2 r2 hrec
    subst hl; subst hr
    exact ⟨all_clean_subset s.data l2 hsl hs, all_clean_subset s.data r2 hsr hs⟩
  | none => rw [hrec] at h; cases h

/-- The residual strip of escape-free names is escape-free. -/
theorem stripResidual_clean (mFull m0 : String)
    (_hf : cleanStr mFull = true) (h0 : cleanStr m0 = true) :
    cleanStr (stripResidual mFull m0) = true := by
  simp only [stripResidual]
  by_cases he : m0 = mFull
  · rw [if_pos he]
    cases hdot : lastDotSplit m0 with
    | some pair =>
      obtain ⟨l, r⟩ := pair
      exact (lastDotSplit_clean m0 l r h0 hdot).2
    | none => exact h0
  · rw [if_neg he]; exact h0

/-- Context resolution of an escape-free command yields escape-free
context and method names. -/
theorem resolveContext_ok_clean (cmd : Json) (mFull ctx m0 : String)
    (hcf : cleanCmdFields cmd) (hmf : cleanStr mFull = true)
    (h : resolveContext cmd mFull = Except.ok (ctx, m0)) :
    cleanStr ctx = true ∧ cleanStr m0 = true := by
  simp only [resolveContext] at h
  split at h
  · cases hconv : asStringE (jGet cmd "class") with
    | ok c =>
      rw [hconv] at h
      injection h with h2
      injection h2 with hc hm
      rw [← hc, ← hm]
      exact ⟨hcf.2.1 c (asStringE_ok _ _ hconv), hmf⟩
    | error e => rw [hconv] at h; cases h
  split at h
  · cases hconv : asStringE (jGet cmd "context") with
    | ok c =>
      rw [hconv] at h
      injection h with h2
      injection h2 with hc hm
      rw [← hc, ← hm]
      exact ⟨hcf.2.2 c (asStringE_ok _ _ hconv), hmf⟩
    | error e => rw [hconv] at h; cases h
  · cases hdot : lastDotSplit mFull with
    | some pair =>
      obtain ⟨l, r⟩ := pair
      rw [hdot] at h
      injection h with h2
      injection h2 with hc hm
      rw [← hc, ← hm]
      exact lastDotSplit_clean mFull l r hmf hdot
    | none => rw [hdot] at h; cases h

/-- A failing context resolution of an escape-free command is either a
thrown type error with escape-free text or the structural no-dot error
envelope with an escape-free message. -/
theorem resolveContext_error_clean (cmd : Json) (mFull : String) (d : DErr)
    (hmf : cleanStr mFull = true)
    (h : resolveContext cmd mFull = Except.error d) :
    (∃ e, d = DErr.exn e ∧ cleanStr e = true)
    ∨ (∃ m, d = DErr.ret (errEnv m) ∧ cleanStr m = true) := by
  simp only [resolveContext] at h
  split at h
  · cases hconv : asStringE (jGet cmd "class") with
    | ok c => rw [hconv] at h; cases h
    | error e =>
      rw [hconv] at h
      injection h with h2
      exact Or.inl ⟨e, by rw [← h2], asStringE_error_clean _ _ hconv⟩
  split at h
  · cases hconv : asStringE (jGet cmd "context") with
    | ok c => rw [hconv] at h; cases h
    | error e =>
      rw [hconv] at h
      injection h with h2
      exact Or.inl ⟨e, by rw [← h2], asStringE_error_clean _ _ hconv⟩
  · cases hdot : lastDotSplit mFull with
    | some pair => obtain ⟨l, r⟩ := pair; rw [hdot] at h; cases h
    | none =>
      rw [hdot] at h
      injection h with h2
      refine Or.inr ⟨"Invalid JSON command structure: missing class or context, and method name \x27"
        ++ mFull ++ "\x27 has no dot separator.", by rw [← h2], ?_⟩
      refine cleanStr_append _ _ (cleanStr_append _ _ (by decide) hmf) (by decide)

/-- The unwrapped type name of a registered instance is escape-free under
the clean-registry hypothesis. -/
theorem registryGet_clean (registry : List (String × Variant)) (ctx : String)
    (hreg : cleanRegistry registry = true)
    (hne : InstanceRegistry.Get registry ctx ≠ Variant.invalid) :
    cleanStr (unwrapInstance (InstanceRegistry.Get registry ctx)).1.name = true := by
  cases hfind : registry.find? (fun p => p.1 = ctx) with
  | none =>
    exfalso
    apply hne
    simp only [InstanceRegistry.Get, hfind]
  | some p =>
    have hmem := List.mem_of_find?_eq_some hfind
    have hGet : InstanceRegistry.Get registry ctx = p.2 := by
      simp only [InstanceRegistry.Get, hfind]
    rw [hGet]
    simp only [cleanRegistry, List.all_eq_true] at hreg
    exact hreg p hmem

/-- A resolved method belongs to some catalog entry. -/
theorem getMethod_mem (catalog : List RClass) (t : RType) (n : String)
    (m : Method) (h : getMethod catalog t n = some m) :
    ∃ c ∈ catalog, m ∈ c.methods := by
  cases t <;> simp only [getMethod] at h <;> try cases h
  case classT cn =>
    cases hfind : catalog.find? (fun c => c.name = cn) with
    | none => rw [hfind] at h; cases h
    | some c =>
      rw [hfind] at h
      exact ⟨c, List.mem_of_find?_eq_some hfind, List.mem_of_find?_eq_some h⟩

/-- A stoi failure carries the what() text stoi. -/
theorem stoiChars_error (cs : List Char) (e : String)
    (h : stoiChars cs = Except.error e) : e = "stoi" := by
  simp only [stoiChars] at h
  cases hscan : stoiScan cs with
  | none => rw [hscan] at h; injection h with h2; exact h2.symm
  | some v =>
    rw [hscan] at h
    change (if v < -2147483648 ∨ 2147483647 < v then Except.error "stoi"
      else Except.ok v) = Except.error e at h
    by_cases hb : v < -2147483648 ∨ 2147483647 < v
    · rw [if_pos hb] at h; injection h with h2; exact h2.symm
    · rw [if_neg hb] at h; cases h

/-- A stof failure carries the what() text stof. -/
theorem stofChars_error (cs : List Char) (e : String)
    (h : stofChars cs = Except.error e) : e = "stof" := by
  simp only [stofChars] at h
  cases hscan : stofScan cs with
  | none => rw [hscan] at h; injection h with h2; exact h2.symm
  | some v => rw [hscan] at h; cases h

/-- A stod failure carries the what() text stod. -/
theorem stodChars_error (cs : List Char) (e : String)
    (h : stodChars cs = Except.error e) : e = "stod" := by
  simp only [stodChars] at h
  cases hscan : stofScan cs with
  | none => rw [hscan] at h; injection h with h2; exact h2.symm
  | some v => rw [hscan] at h; cases h

/-- Every coercion failure is one of the three conversion exceptions. -/
theorem JsonToVariant_error (j : Json) (t : RType) (e : String)
    (h : JsonToVariant j t = Except.error e) :
    e = "stoi" ∨ e = "stof" ∨ e = "stod" := by
  cases t <;> cases j <;>
    (try simp [JsonToVariant] at h) <;>
    (try exact Except.noConfusion h)
  case tInt.jstr s =>
    cases hs : stoiChars s.data with
    | ok v => rw [hs] at h; exact Except.noConfusion h
    | error e2 =>
      rw [hs] at h
      have h3 : e2 = e := by injection h
      rw [← h3]
      exact Or.inl (stoiChars_error s.data e2 hs)
  case tFloat.jstr s =>
    cases hs : stofChars s.data with
    | ok v => rw [hs] at h; exact Except.noConfusion h
    | error e2 =>
      rw [hs] at h
      have h3 : e2 = e := by injection h
      rw [← h3]
      exact Or.inr (Or.inl (stofChars_error s.data e2 hs))
  case tDouble.jstr s =>
    cases hs : stodChars s.data with
    | ok v => rw [hs] at h; exact Except.noConfusion h
    | error e2 =>
      rw [hs] at h
      have h3 : e2 = e := by injection h
      rw [← h3]
      exact Or.inr (Or.inr (stodChars_error s.data e2 hs))

/-- A positional-binding failure is a conversion exception. -/
theorem buildPositionalAux_error (params : List ParamInfo) :
    ∀ (i : Nat) (xs : List Json) (e : String),
      buildPositionalAux i xs params = Except.error e →
      e = "stoi" ∨ e = "stof" ∨ e = "stod" := by
  induction params with
  | nil => intro i xs e h; cases h
  | cons p ps ih =>
    intro i xs e h
    simp only [buildPositionalAux] at h
    cases hj : (if hlt : i < xs.length
        then JsonToVariant (xs.get ⟨i, hlt⟩) p.type
        else Except.ok Variant.invalid) with
    | error e2 =>
      rw [hj] at h
      injection h with h2
      rw [← h2]
      by_cases hlt : i < xs.length
      · rw [dif_pos hlt] at hj
        exact JsonToVariant_error _ _ _ hj
      · rw [dif_neg hlt] at hj; cases hj
    | ok v =>
      rw [hj] at h
      cases hr : buildPositionalAux (i + 1) xs ps with
      | error e2 =>
        rw [hr] at h
        injection h with h2
        rw [← h2]
        exact ih (i + 1) xs e2 hr
      | ok rest => rw [hr] at h; cases h

/-- A named-binding failure is a conversion exception. -/
theorem buildNamedAux_error (params : List ParamInfo) :
    ∀ (fields : List (String × Json)) (e : String),
      buildNamedAux fields params = Except.error e →
      e = "stoi" ∨ e = "stof" ∨ e = "stod" := by
  induction params with
  | nil => intro fields e h; cases h
  | cons p ps ih =>
    intro fields e h
    simp only [buildNamedAux] at h
    cases hj : (match lookupField fields p.name with
        | some jv => JsonToVariant jv p.type
        | none => Except.ok Variant.invalid) with
    | error e2 =>
      rw [hj] at h
      injection h with h2
      rw [← h2]
      cases hlook : lookupField fields p.name with
      | some jv =>
        rw [hlook] at hj
        exact JsonToVariant_error _ _ _ hj
      | none => rw [hlook] at hj; cases hj
    | ok v =>
      rw [hj] at h
      cases hr : buildNamedAux fields ps with
      | error e2 =>
        rw [hr] at h
        injection h with h2
        rw [← h2]
        exact ih fields e2 hr
      | ok rest => rw [hr] at h; cases h

/-- An argument-building failure is a conversion exception. -/
theorem buildArgs_error (jArgsOpt : Option Json) (params : List ParamInfo)
    (e : String) (h : buildArgs jArgsOpt params = Except.error e) :
    e = "stoi" ∨ e = "stof" ∨ e = "stod" := by
  cases jArgsOpt with
  | none => simp only [buildArgs] at h; cases h
  | some jArgs =>
    cases jArgs with
    | jarr xs => exact buildPositionalAux_error params 0 xs e h
    | jobj fields => exact buildNamedAux_error params fields e h
    | null => simp only [buildArgs] at h; cases h
    | jbool b => simp only [buildArgs] at h; cases h
    | jint n => simp only [buildArgs] at h; cases h
    | jnum q => simp only [buildArgs] at h; cases h
    | jstr s => simp only [buildArgs] at h; cases h

/-- Dispatch of a command with no method field. -/
theorem dispatch_no_method (catalog : List RClass)
    (registry : List (String × Variant)) (cmd : Json)
    (h1 : jContains cmd "method" = false) :
    DispatchCommand catalog registry (Except.ok cmd)
      = errEnv "Invalid JSON command structure: missing method" := by
  simp only [DispatchCommand, dispatchInner, h1, Bool.not_false, if_true,
    catchResponse]

/-- Dispatch of a command whose method field is not a string. -/
theorem dispatch_method_exn (catalog : List RClass)
    (registry : List (String × Variant)) (cmd : Json) (e : String)
    (h1 : jContains cmd "method" = true)
    (h2 : asStringE (jGet cmd "method") = Except.error e) :
    DispatchCommand catalog registry (Except.ok cmd)
      = errEnv ("Dispatch exception: " ++ e) := by
  simp only [DispatchCommand, dispatchInner, h1, h2, Bool.not_true,
    Bool.false_eq_true, if_false, catchResponse]

/-- Dispatch of a command whose context resolution fails. -/
theorem dispatch_resolve_error (catalog : List RClass)
    (registry : List (String × Variant)) (cmd : Json) (mFull : String)
    (d : DErr)
    (h1 : jContains cmd "method" = true)
    (h2 : asStringE (jGet cmd "method") = Except.ok mFull)
    (h3 : resolveContext cmd mFull = Except.error d) :
    DispatchCommand catalog registry (Except.ok cmd)
      = catchResponse (Except.error d) := by
  simp only [DispatchCommand, dispatchInner, h1, h2, h3, Bool.not_true,
    Bool.false_eq_true, if_false]

/-- Dispatch of a command whose context names no registered instance. -/
theorem dispatch_instance_missing (catalog : List RClass)
    (registry : List (String × Variant)) (cmd : Json) (mFull ctx m0 : String)
    (h1 : jContains cmd "method" = true)
    (h2 : asStringE (jGet cmd "method") = Except.ok mFull)
    (h3 : resolveContext cmd mFull = Except.ok (ctx, m0))
    (h4 : InstanceRegistry.Get registry ctx = Variant.invalid) :
    DispatchCommand catalog registry (Except.ok cmd)
      = errEnv ("Instance not found: " ++ ctx) := by
  simp only [DispatchCommand, dispatchInner, h1, h2, h3, h4, Bool.not_true,
    Bool.false_eq_true, if_false, if_pos rfl, catchResponse]
  simp

/-- Dispatch of a command whose method is not found on the resolved type. -/
theorem dispatch_method_missing (catalog : List RClass)
    (registry : List (String × Variant)) (cmd : Json) (mFull ctx m0 : String)
    (h1 : jContains cmd "method" = true)
    (h2 : asStringE (jGet cmd "method") = Except.ok mFull)
    (h3 : resolveContext cmd mFull = Except.ok (ctx, m0))
    (h5 : InstanceRegistry.Get registry ctx ≠ Variant.invalid)
    (h6 : getMethod catalog (unwrapInstance (InstanceRegistry.Get registry ctx)).1
        (stripResidual mFull m0) = none) :
    DispatchCommand catalog registry (Except.ok cmd)
      = errEnv ("Method not found: " ++ stripResidual mFull m0 ++ " on type "
          ++ (unwrapInstance (InstanceRegistry.Get registry ctx)).1.name) := by
  simp only [DispatchCommand, dispatchInner, h1, h2, h3, h6, Bool.not_true,
    Bool.false_eq_true, if_false, if_neg h5, catchResponse]

/-- C1: dispatch is a total function (no exception escapes: every modelled
throw is caught at the boundary), and its response is a syntactically valid
JSON object text with exactly one of the top-level keys result or error,
provided every fragment spliced into a hand-built envelope is escape-free:
the parse-error text, the method, class and context field strings, the
registered type names and the invoker exception texts. This is the amended
form: the code splices these fragments into the envelope text with no
escaping, so a quote, backslash or control character in them breaks JSON
validity (see the counterexample). -/
theorem dispatchEnvelopeWellFormed
    (catalog : List RClass) (registry : List (String × Variant))
    (input : Except String Json)
    (hin : CleanInput input)
    (hreg : cleanRegistry registry = true)
    (hcat : CleanInvokers catalog) :
    envelopeOkB (DispatchCommand catalog registry input) = true := by
  cases input with
  | error msg =>
    have hmsg : cleanStr msg = true := hin
    show envelopeOkB (errEnv ("JSON parse error: " ++ msg)) = true
    exact envelopeOkB_errEnv _ (cleanStr_append _ _ (by decide) hmsg)
  | ok cmd =>
    have hcf : cleanCmdFields cmd := hin
    cases h1 : jContains cmd "method" with
    | false =>
      rw [dispatch_no_method catalog registry cmd h1]
      exact envelopeOkB_errEnv _ (by decide)
    | true =>
      cases h2 : asStringE (jGet cmd "method") with
      | error e =>
        rw [dispatch_method_exn catalog registry cmd e h1 h2]
        exact envelopeOkB_errEnv _
          (cleanStr_append _ _ (by decide) (asStringE_error_clean _ _ h2))
      | ok mFull =>
        have hmf : cleanStr mFull = true := hcf.1 mFull (asStringE_ok _ _ h2)
        cases h3 : resolveContext cmd mFull with
        | error d =>
          rw [dispatch_resolve_error catalog registry cmd mFull d h1 h2 h3]
          rcases resolveContext_error_clean cmd mFull d hmf h3 with
            ⟨e, hd, he⟩ | ⟨m, hd, hm⟩
          · rw [hd]
            show envelopeOkB (errEnv ("Dispatch exception: " ++ e)) = true
            exact envelopeOkB_errEnv _ (cleanStr_append _ _ (by decide) he)
          · rw [hd]
            show envelopeOkB (errEnv m) = true
            exact envelopeOkB_errEnv _ hm
        | ok pair =>
          obtain ⟨ctx, m0⟩ := pair
          obtain ⟨hctx, hm0⟩ := resolveContext_ok_clean cmd mFull ctx m0 hcf hmf h3
          by_cases h4 : InstanceRegistry.Get registry ctx = Variant.invalid
          · rw [dispatch_instance_missing catalog registry cmd mFull ctx m0
              h1 h2 h3 h4]
            exact envelopeOkB_errEnv _ (cleanStr_append _ _ (by decide) hctx)
          · cases h6 : getMethod catalog
                (unwrapInstance (InstanceRegistry.Get registry ctx)).1
                (stripResidual mFull m0) with
            | none =>
              rw [dispatch_method_missing catalog registry cmd mFull ctx m0
                h1 h2 h3 h4 h6]
              refine envelopeOkB_errEnv _ ?_
              refine cleanStr_append _ _ (cleanStr_append _ _
                (cleanStr_append _ _ (by decide)
                  (stripResidual_clean mFull m0 hmf hm0)) (by decide)) ?_
              exact registryGet_clean registry ctx hreg h4
            | some method =>
              cases h7 : buildArgs (argsOf cmd) method.params with
              | error e =>
                rw [dispatch_args_exn catalog registry cmd mFull ctx m0
                  (InstanceRegistry.Get registry ctx) method e
                  h1 h2 h3 rfl h4 h6 h7]
                rcases buildArgs_error (argsOf cmd) method.params e h7 with
                  he | he | he <;>
                  (rw [he]; exact envelopeOkB_errEnv _ (by decide))
              | ok avs =>
                rw [dispatch_reaches_invoke catalog registry cmd mFull ctx m0
                  (InstanceRegistry.Get registry ctx) method avs
                  h1 h2 h3 rfl h4 h6 h7]
                simp only [invokeAndSerialize]
                by_cases h8 : 6 < avs.length
                · rw [if_pos h8]
                  show envelopeOkB (errEnv "Too many arguments (max 6 supported)")
                    = true
                  exact envelopeOkB_errEnv _ (by decide)
                · rw [if_neg h8]
                  cases h9 : method.invoke
                      (unwrapInstance (InstanceRegistry.Get registry ctx)).2 avs with
                  | error e =>
                    obtain ⟨c, hcmem, hmmem⟩ := getMethod_mem catalog _ _ method h6
                    have he : cleanStr e = true :=
                      hcat c hcmem method hmmem _ _ e h9
                    show envelopeOkB (errEnv ("Dispatch exception: " ++ e)) = true
                    exact envelopeOkB_errEnv _ (cleanStr_append _ _ (by decide) he)
                  | ok result =>
                    show envelopeOkB (catchResponse
                      (if result = Variant.invalid then
                        if method.retType = RType.tVoid then Except.ok voidEnv
                        else Except.ok
                          (errEnv "Invocation failed (returned invalid variant)")
                      else Except.ok (resultEnv (variantToString result)))) = true
                    by_cases h10 : result = Variant.invalid
                    · rw [if_pos h10]
                      by_cases h11 : method.retType = RType.tVoid
                      · rw [if_pos h11]
                        exact envelopeOkB_voidEnv
                      · rw [if_neg h11]
                        exact envelopeOkB_errEnv _ (by decide)
                    · rw [if_neg h10]
                      exact envelopeOkB_resultEnv (variantToString result)

/-- C1 counterexample: a command whose method name contains a quote and
has no dot makes dispatch splice the name into the structural error
envelope unescaped, and the returned text is not valid JSON. -/
theorem dispatchEnvelope_counterexample :
    DispatchCommand [] []
        (Except.ok (Json.jobj [("method", Json.jstr "a\"b")]))
      = errEnv "Invalid JSON command structure: missing class or context, and method name \x27a\"b\x27 has no dot separator."
  ∧ isValidJsonTextB (DispatchCommand [] []
        (Except.ok (Json.jobj [("method", Json.jstr "a\"b")]))) = false :=
  ⟨rfl, by decide⟩

/-- C1 witness: an escape-free command over the empty catalog and registry
(the response is the instance-not-found envelope, a valid JSON object with
the single error key). -/
theorem dispatchEnvelopeWellFormed_witness :
    envelopeOkB (DispatchCommand [] []
      (Except.ok (Json.jobj [("method", Json.jstr "A.b")]))) = true :=
  dispatchEnvelopeWellFormed [] []
    (Except.ok (Json.jobj [("method", Json.jstr "A.b")]))
    ⟨fun s h => by injection h with h2; rw [← h2]; decide,
     fun s h => Json.noConfusion h,
     fun s h => Json.noConfusion h⟩
    rfl
    (fun c hc => absurd hc (List.not_mem_nil c))

end Rail
